import Mathlib

/-!
Verification of the level-progression state machine of the Probuzhdenie chat
bot (src/main.py, src/service/repository.py, src/storage/migrator.py,
src/payments/pay.py) against its natural-language specification.

The repository code is a Python Telegram bot backed by a PostgreSQL store.
We shallow-embed the per-user slice of the store (one users row, one
user_data row, the tasks and donations tables restricted to that user) as a
Lean structure, and each repository method / message handler as a function
on that state.  All timestamps are seconds as Nat; SQL NOW() is passed in
explicitly.  Storage-level constraints (the CHECK and UNIQUE clauses created
in storage/migrator.py) are part of each write operation: a write whose row
would violate a constraint raises in the Python code, is caught, rolls the
transaction back and returns False, so here it returns false and leaves the
state unchanged.

The referral ledger connects two users and its creation path is modelled
separately (see the RefSt section), matching service/repository.py's
ReferralRepository.create_referral and the referrals table schema.
-/

namespace Probuzhdenie

/-- MAX_LEVEL is imported from service/config.py, which is not part of the
    sources; the spec fixes it at 21, and the migrator's CHECK constraints
    (current_level <= 21, level <= 21) agree.  Modelled from the spec:
    service/config.py, constant MAX_LEVEL. -/
def MAX_LEVEL : Nat := 21

/-- TASK_DURATION = timedelta(hours=24) from main.py, in seconds. -/
def TASK_DURATION : Nat := 86400

/-- Bot states from service/states.py (class BotStates). -/
def stSTART : Nat := 0
def stLANGUAGE_SELECTION : Nat := 1
def stMAIN_MENU : Nat := 2
def stREGISTRATION_NAME : Nat := 3
def stREGISTRATION_BIRTHDATE : Nat := 4
def stREGISTRATION_LOCATION : Nat := 5
def stLEVEL_CONTENT : Nat := 6
def stTASK_SELECTION : Nat := 7
def stTIME_TASK : Nat := 8
def stREFERRAL_TASK : Nat := 9
def stDONATION_TASK : Nat := 10
def stFINAL_LEVEL : Nat := 11
def stCHARITY_AMOUNT_INPUT : Nat := 12
def stFAQ : Nat := 13

/-- Task types, per the tasks table CHECK constraint
    (task_type IN ('time', 'referral', 'donation', 'auto')). -/
inductive TaskType where
  | time
  | referral
  | donation
  | auto
deriving DecidableEq, Repr

/-- Donation statuses, per DonationRepository's STATUS_* constants. -/
inductive DStatus where
  | pending
  | waitingForCapture
  | succeeded
  | canceled
deriving DecidableEq, Repr

/-- One row of the tasks table (id and user_id omitted: single-user slice;
    completion_time is nullable). -/
structure TaskRow where
  level : Nat
  taskType : TaskType
  startTime : Nat
  endTime : Nat
  completed : Bool
  completionTime : Option Nat
deriving DecidableEq, Repr

/-- One row of the donations table (user_id omitted: single-user slice;
    donation_date is NOT NULL; payment_id is nullable, payment ids are
    modelled as Nat). -/
structure DonationRow where
  id : Nat
  level : Nat
  amount : Nat
  currency : String
  status : DStatus
  donationDate : Nat
  paymentId : Option Nat
  processed : Bool
deriving DecidableEq, Repr

/-- The per-user slice of the persistent store: the users row (flattened:
    registration_complete, current_level, current_state), the user_data row
    (only viewed_level matters to the claims; a missing row is none, a row
    created by save_user_data without viewed_level gets the schema DEFAULT 1),
    and the tasks and donations tables restricted to this user.
    nextDonationId models the donations SERIAL id sequence. -/
structure St where
  userExists : Bool
  regComplete : Bool
  currentLevel : Nat
  currentState : Nat
  userData : Option Nat
  tasks : List TaskRow
  donations : List DonationRow
  nextDonationId : Nat
deriving DecidableEq, Repr

/-- The empty store: no users row yet. The users-row fields carry the schema
    defaults they would take on creation. -/
def initSt : St :=
  { userExists := false, regComplete := false, currentLevel := 1,
    currentState := 0, userData := none, tasks := [], donations := [],
    nextDonationId := 1 }

/-! ## UserRepository -/

/-- UserRepository.create_user: INSERT ... ON CONFLICT (id) DO NOTHING with
    defaults registration_complete=FALSE, current_level=1, current_state=0;
    returns rowcount > 0. -/
def createUser (s : St) : Bool × St :=
  if s.userExists then (false, s)
  else (true, { s with userExists := true, regComplete := false,
                       currentLevel := 1, currentState := 0 })

/-- UserRepository.set_user_state: UPDATE users SET current_state;
    returns rowcount > 0 (false when the user does not exist). -/
def setUserState (s : St) (st : Nat) : Bool × St :=
  if s.userExists then (true, { s with currentState := st }) else (false, s)

/-- UserRepository.complete_registration: UPDATE users SET
    registration_complete = TRUE, current_level = 1, current_state = MAIN_MENU.
    The after_user_registration trigger (migrator.py) then updates referral
    edges of this referee; since ReferralRepository.create_referral can never
    insert an edge (its INSERT omits the NOT NULL level column, see the RefSt
    section), the trigger finds no edge and has no effect. -/
def completeRegistration (s : St) : Bool × St :=
  if s.userExists then
    (true, { s with regComplete := true, currentLevel := 1,
                    currentState := stMAIN_MENU })
  else (false, s)

/-- The unconditional write step of UserRepository.update_user_level:
    UPDATE users SET current_level = min(level, MAX_LEVEL).  The users table
    CHECK (current_level >= 1 AND current_level <= 21) rejects a value below
    1 (exception, rollback, False); rowcount is 0 when the user is missing. -/
def updateUserLevelWrite (s : St) (level : Nat) : Bool × St :=
  if ¬ s.userExists then (false, s)
  else if 1 ≤ min level MAX_LEVEL ∧ min level MAX_LEVEL ≤ MAX_LEVEL then
    (true, { s with currentLevel := min level MAX_LEVEL })
  else (false, s)

/-- UserRepository.update_user_level(user_id, level, force): without force it
    first reads current_level (raising if the user is missing, caught and
    returned as False), rejects level > MAX_LEVEL, rejects
    level <= current_level, and otherwise writes min(level, MAX_LEVEL);
    with force it writes directly. -/
def updateUserLevel (s : St) (level : Nat) (force : Bool) : Bool × St :=
  if force then updateUserLevelWrite s level
  else if ¬ s.userExists then (false, s)
  else if level > MAX_LEVEL then (false, s)
  else if level ≤ s.currentLevel then (false, s)
  else updateUserLevelWrite s level

/-! ## UserDataRepository -/

/-- UserDataRepository.get_viewed_level: data.get('viewed_level', 1). -/
def getViewedLevel (s : St) : Nat := s.userData.getD 1

/-- UserDataRepository.set_viewed_level via save_user_data: upsert of the
    user_data row with viewed_level = level.  The CHECK
    (viewed_level >= 1 AND viewed_level <= 21) rejects out-of-range values;
    the INSERT's foreign key requires the users row. -/
def setViewedLevel (s : St) (level : Nat) : Bool × St :=
  if ¬ s.userExists then (false, s)
  else if 1 ≤ level ∧ level ≤ MAX_LEVEL then
    (true, { s with userData := some level })
  else (false, s)

/-- UserDataRepository.save_user_data called with columns other than
    viewed_level (language, name, birthdate, location): creates the user_data
    row if absent, in which case viewed_level takes its schema DEFAULT 1;
    an existing row keeps its viewed_level. -/
def ensureUserDataRow (s : St) : St :=
  if s.userExists ∧ s.userData = none then { s with userData := some 1 } else s

/-! ## TaskRepository -/

/-- TaskRepository.create_task: a plain INSERT INTO tasks.  Any constraint
    violation (missing users row for the foreign key, the level CHECK, the
    valid_task_times CHECK end_time >= start_time, or the
    tasks_unique UNIQUE (user_id, level, task_type)) raises, is caught,
    rolls back and returns False.  completion_time is not in the column list,
    so it is NULL even for rows inserted with completed=TRUE. -/
def createTask (s : St) (level : Nat) (ty : TaskType)
    (startT endT : Nat) (completed : Bool) : Bool × St :=
  if ¬ s.userExists then (false, s)
  else if ¬ (1 ≤ level ∧ level ≤ MAX_LEVEL) then (false, s)
  else if endT < startT then (false, s)
  else if s.tasks.any (fun t => decide (t.level = level ∧ t.taskType = ty)) then
    (false, s)
  else
    (true, { s with tasks := s.tasks ++
      [{ level := level, taskType := ty, startTime := startT, endTime := endT,
         completed := completed, completionTime := none }] })

/-- TaskRepository.complete_task: UPDATE tasks SET completed = TRUE,
    completion_time = NOW() WHERE level AND task_type match AND
    completed = FALSE; returns rowcount > 0. -/
def completeTask (s : St) (level : Nat) (ty : TaskType) (now : Nat) :
    Bool × St :=
  let hit := s.tasks.any (fun t =>
    decide (t.level = level ∧ t.taskType = ty ∧ t.completed = false))
  (hit, { s with tasks := s.tasks.map (fun t =>
    if t.level = level ∧ t.taskType = ty ∧ t.completed = false then
      { t with completed := true, completionTime := some now }
    else t) })

/-- TaskRepository.is_task_completed: true iff some row for this level is
    completed, optionally restricted to one task type. -/
def isTaskCompleted (s : St) (level : Nat) (ty : Option TaskType) : Bool :=
  s.tasks.any (fun t =>
    decide (t.level = level) && t.completed &&
      (match ty with
       | none => true
       | some ty0 => decide (t.taskType = ty0)))

/-- TaskRepository.get_active_time_task: the non-completed time row for this
    level (unique by the tasks_unique constraint, so ORDER BY ... LIMIT 1
    reduces to a lookup). -/
def getActiveTimeTask (s : St) (level : Nat) : Option TaskRow :=
  s.tasks.find? (fun t =>
    decide (t.level = level ∧ t.taskType = TaskType.time) && !t.completed)

/-! ## DonationRepository -/

/-- DonationRepository.create_donation: INSERT INTO donations with
    donation_date = NOW() and processed taking its DEFAULT FALSE.  The
    CHECK (level >= 1 AND level <= 21) rejects level = 0, and
    CHECK (amount > 0) rejects a zero amount (exception, rollback, False). -/
def createDonation (s : St) (level amount : Nat) (currency : String)
    (status : DStatus) (paymentId : Option Nat) (now : Nat) : Bool × St :=
  if ¬ s.userExists then (false, s)
  else if ¬ (1 ≤ level ∧ level ≤ MAX_LEVEL) then (false, s)
  else if amount = 0 then (false, s)
  else
    (true, { s with
      donations := s.donations ++
        [{ id := s.nextDonationId, level := level, amount := amount,
           currency := currency, status := status, donationDate := now,
           paymentId := paymentId, processed := false }],
      nextDonationId := s.nextDonationId + 1 })

/-- SELECT ... FROM donations WHERE id = donation_id. -/
def findDonation (s : St) (id : Nat) : Option DonationRow :=
  s.donations.find? (fun d => decide (d.id = id))

/-- DonationRepository.get_last_donation: the row for this level with the
    greatest donation_date; among equal dates this model keeps the
    last-inserted row (postgres leaves the tie order unspecified). -/
def getLastDonation (s : St) (level : Nat) : Option DonationRow :=
  (s.donations.filter (fun d => decide (d.level = level))).foldl
    (fun acc d =>
      match acc with
      | none => some d
      | some a => if a.donationDate ≤ d.donationDate then some d else some a)
    none

/-- DonationRepository.update_donation_status: one transaction that
    1. reads the donation row FOR UPDATE (missing row: False);
    2. rejects a transition away from succeeded (False, nothing written);
    3. updates status, payment_id (COALESCE keeps the old one when the
       argument is NULL), processed, and leaves donation_date alone (the
       column is NOT NULL, so the CASE's IS NULL branch never fires);
    4. for status = succeeded additionally INSERTs the completed
       donation-type task row ON CONFLICT DO NOTHING; a CHECK violation on
       that insert (level outside 1..21) raises and rolls the whole
       transaction back.
    The returned Bool is cursor.rowcount > 0 of the last statement executed:
    for succeeded that is the task INSERT (0 when the conflict skipped it),
    otherwise the donation UPDATE. -/
def updateDonationStatus (s : St) (donationId : Nat) (status : DStatus)
    (paymentId : Option Nat) (processed : Bool) (now : Nat) : Bool × St :=
  match findDonation s donationId with
  | none => (false, s)
  | some d =>
    if d.status = DStatus.succeeded ∧ status ≠ DStatus.succeeded then
      (false, s)
    else
      let d' : DonationRow :=
        { d with status := status,
                 paymentId := (match paymentId with
                               | some p => some p
                               | none => d.paymentId),
                 processed := processed }
      let s1 := { s with donations := s.donations.map (fun x =>
                    if x.id = donationId then d' else x) }
      if status = DStatus.succeeded then
        if ¬ (1 ≤ d.level ∧ d.level ≤ MAX_LEVEL) then (false, s)
        else if s1.tasks.any (fun t =>
            decide (t.level = d.level ∧ t.taskType = TaskType.donation)) then
          (false, s1)
        else
          (true, { s1 with tasks := s1.tasks ++
            [{ level := d.level, taskType := TaskType.donation,
               startTime := now, endTime := now, completed := true,
               completionTime := none }] })
      else (true, s1)

/-- DonationRepository.is_donation_processed. -/
def isDonationProcessed (s : St) (id : Nat) : Bool :=
  match findDonation s id with
  | some d => d.processed
  | none => false

/-- DonationRepository.get_pending_payments. -/
def getPendingPayments (s : St) : List DonationRow :=
  s.donations.filter (fun d => decide (d.status = DStatus.pending))

/-! ## Message handlers (main.py)

Each handler is a function on the store; parameters stand for the message
content, the wall clock at the time of the call, and answers of the external
payment provider.  A handler whose telebot guard (message text plus
user state read in the decorator) does not match is simply not invoked, so
the functions return the state unchanged in that case.  Handlers catch all
exceptions and reply with an error message, so a raising code path leaves
the store as it was at the raise point.

The levels table is external read-only content; following the spec it is
assumed populated for exactly the level numbers 1..MAX_LEVEL allowed by its
CHECK constraint, so get_level_content(n) is some text iff 1 <= n <= 21. -/

/-- show_level_content(message, n): writes viewed_level = n (ignoring the
    result), clamps the displayed level to current_level, returns before the
    state write when the level content is missing (display outside 1..21),
    and otherwise sets current_state = LEVEL_CONTENT. -/
def showLevelContent (s : St) (n : Nat) : St :=
  let s1 := (setViewedLevel s n).2
  let display := if s1.userExists ∧ s1.currentLevel < n then s1.currentLevel else n
  if 1 ≤ display ∧ display ≤ MAX_LEVEL then (setUserState s1 stLEVEL_CONTENT).2
  else s1

/-- show_final_level_message: sets current_state = FINAL_LEVEL. -/
def showFinalLevel (s : St) : St :=
  (setUserState s stFINAL_LEVEL).2

/-- show_main_menu: sets current_state = MAIN_MENU. -/
def showMainMenu (s : St) : St :=
  (setUserState s stMAIN_MENU).2

/-- show_task_selection: redirects to the final-level message at
    current_level >= MAX_LEVEL, otherwise sets current_state = TASK_SELECTION
    (a missing user makes user.get raise, caught: no change). -/
def showTaskSelection (s : St) : St :=
  if ¬ s.userExists then s
  else if MAX_LEVEL ≤ s.currentLevel then showFinalLevel s
  else (setUserState s stTASK_SELECTION).2

/-- show_task_status_details: only reads the ledgers, then sets
    current_state = TASK_SELECTION. -/
def showTaskStatusDetails (s : St) : St :=
  (setUserState s stTASK_SELECTION).2

/-- handle_next_button, the 'Далее' button (matched on text alone, any
    state): at viewed_level = 1 it inserts the completed auto task for
    level 1 and attempts the bump to level 2 (both results ignored), then
    shows level 2; when browsing a past level it just shows the next one;
    at viewed_level >= MAX_LEVEL it shows the final message; otherwise it
    requires a completed task at viewed_level and bumps. -/
def handleNextButton (s : St) (now : Nat) : St :=
  if ¬ s.userExists then s
  else
    let viewed := getViewedLevel s
    if viewed = 1 then
      let s1 := (createTask s 1 TaskType.auto now now true).2
      let s2 := (updateUserLevel s1 2 false).2
      showLevelContent s2 2
    else if viewed < s.currentLevel then showLevelContent s (viewed + 1)
    else if MAX_LEVEL ≤ viewed then showFinalLevel s
    else if ¬ isTaskCompleted s viewed none then showTaskSelection s
    else
      let r := updateUserLevel s (viewed + 1) false
      if r.1 then showLevelContent r.2 (viewed + 1) else r.2

/-- handle_next_level_request, the 'Далее, перейти к следующему уровню.'
    button (guard: state LEVEL_CONTENT): shows the final message at
    current_level >= MAX_LEVEL; bumps to current_level + 1 when some task at
    current_level is completed; otherwise shows the task selection. -/
def handleNextLevelRequest (s : St) : St :=
  if ¬ (s.userExists ∧ s.currentState = stLEVEL_CONTENT) then s
  else if MAX_LEVEL ≤ s.currentLevel then showFinalLevel s
  else if isTaskCompleted s s.currentLevel none then
    let r := updateUserLevel s (s.currentLevel + 1) false
    if r.1 then showLevelContent r.2 (s.currentLevel + 1) else r.2
  else showTaskSelection s

/-- handle_next_level_button, the 'Следующий уровень' button (guard: state
    LEVEL_CONTENT or TASK_SELECTION). -/
def handleNextLevelButton (s : St) : St :=
  if ¬ (s.userExists ∧
        (s.currentState = stLEVEL_CONTENT ∨ s.currentState = stTASK_SELECTION)) then s
  else if isTaskCompleted s s.currentLevel none then
    if s.currentLevel + 1 ≤ MAX_LEVEL then
      let r := updateUserLevel s (s.currentLevel + 1) false
      if r.1 then showLevelContent r.2 (s.currentLevel + 1) else r.2
    else showFinalLevel s
  else showTaskStatusDetails s

/-- handle_time_task, the 'Время' button (guard: state TASK_SELECTION):
    with an active time task it either reports the remaining time (moving to
    state TIME_TASK) or, when start_time + TASK_DURATION has passed,
    completes the task and moves to LEVEL_CONTENT; without one it offers to
    start and moves to TIME_TASK. -/
def handleTimeTask (s : St) (now : Nat) : St :=
  if ¬ (s.userExists ∧ s.currentState = stTASK_SELECTION) then s
  else
    match getActiveTimeTask s s.currentLevel with
    | some t =>
      if now < t.startTime + TASK_DURATION then (setUserState s stTIME_TASK).2
      else
        let s1 := (completeTask s s.currentLevel TaskType.time now).2
        (setUserState s1 stLEVEL_CONTENT).2
    | none => (setUserState s stTIME_TASK).2

/-- start_time_task, the 'Начать задание' button (guard: state TIME_TASK):
    inserts the incomplete time task with end = start + TASK_DURATION
    (result ignored; state unchanged). -/
def startTimeTask (s : St) (now : Nat) : St :=
  if ¬ (s.userExists ∧ s.currentState = stTIME_TASK) then s
  else (createTask s s.currentLevel TaskType.time now (now + TASK_DURATION) false).2

/-- What complete_time_task answers the user. -/
inductive TimeTaskReply where
  | noActive
  | notYet (remainingSeconds : Nat)
  | levelUp (nextLevel : Nat)
  | finalLevel
deriving DecidableEq, Repr

/-- complete_time_task, the 'Задание выполнено' button (guard: state
    TIME_TASK): without an active time task, or before
    start_time + TASK_DURATION, nothing is written; otherwise the task row is
    completed and, when current_level + 1 <= MAX_LEVEL, the level bump is
    performed inline; current_state ends as LEVEL_CONTENT (line 1065 runs
    after either branch, including after show_final_level_message). -/
def completeTimeTask (s : St) (now : Nat) : St :=
  if ¬ (s.userExists ∧ s.currentState = stTIME_TASK) then s
  else
    match getActiveTimeTask s s.currentLevel with
    | none => s
    | some t =>
      if now < t.startTime + TASK_DURATION then s
      else
        let s1 := (completeTask s s.currentLevel TaskType.time now).2
        if s.currentLevel + 1 ≤ MAX_LEVEL then
          let s2 := (updateUserLevel s1 (s.currentLevel + 1) false).2
          (setUserState s2 stLEVEL_CONTENT).2
        else (setUserState (showFinalLevel s1) stLEVEL_CONTENT).2

/-- The reply complete_time_task sends, alongside the state change:
    remaining time is end - now with end = start_time + TASK_DURATION. -/
def completeTimeTaskReply (s : St) (now : Nat) : TimeTaskReply :=
  match getActiveTimeTask s s.currentLevel with
  | none => TimeTaskReply.noActive
  | some t =>
    if now < t.startTime + TASK_DURATION then
      TimeTaskReply.notYet (t.startTime + TASK_DURATION - now)
    else if s.currentLevel + 1 ≤ MAX_LEVEL then
      TimeTaskReply.levelUp (s.currentLevel + 1)
    else TimeTaskReply.finalLevel

/-- handle_referral_task, the 'Пригласи друга' button (guard: state
    TASK_SELECTION): inserts the incomplete referral task (30 days) unless a
    completed one exists, then moves to state REFERRAL_TASK. -/
def handleReferralTask (s : St) (now : Nat) : St :=
  if ¬ (s.userExists ∧ s.currentState = stTASK_SELECTION) then s
  else
    let s1 :=
      if ¬ isTaskCompleted s s.currentLevel (some TaskType.referral) then
        (createTask s s.currentLevel TaskType.referral now
          (now + 30 * 86400) false).2
      else s
    (setUserState s1 stREFERRAL_TASK).2

/-- handle_check_referral_status, the 'Проверить статус задания' button
    (matched on text alone): the handler calls
    referral_repo.get_completed_referrals_count, a method that does not exist
    on ReferralRepository, so an AttributeError is raised before any write
    and caught by the handler's inner except: the store is unchanged. -/
def handleCheckReferralStatus (s : St) : St := s

/-- handle_donation_selection, the 'Донат' button (guard: state
    TASK_SELECTION): below level 2 nothing happens; otherwise the state
    becomes DONATION_TASK, and below MAX_LEVEL a payment is minted through
    payments/pay.py create_payment, which records a pending donation of
    500 RUB for the current level.  paymentOk is false when the provider
    call raises (the donation is then not recorded). -/
def handleDonationSelection (s : St) (paymentOk : Bool) (pid now : Nat) : St :=
  if ¬ (s.userExists ∧ s.currentState = stTASK_SELECTION) then s
  else if s.currentLevel < 2 then s
  else
    let s1 := (setUserState s stDONATION_TASK).2
    if MAX_LEVEL ≤ s1.currentLevel then s1
    else if paymentOk then
      (createDonation s1 s1.currentLevel 500 "RUB" DStatus.pending
        (some pid) now).2
    else s1

/-- check_donation_status, the 'Проверить статус' button (guard: state
    DONATION_TASK): reads the last donation for the current level (a
    snapshot), asks the provider, and on provider status succeeded with the
    snapshot's processed flag false performs the apply: update_donation_status
    (status succeeded, processed True), then create_task for the donation
    task unless one is already completed (aborting on failure), then the
    level bump, then shows the new level and sets LEVEL_CONTENT. -/
def checkDonationStatus (s : St) (provider : DStatus) (now : Nat) : St :=
  if ¬ (s.userExists ∧ s.currentState = stDONATION_TASK) then s
  else
    match getLastDonation s s.currentLevel with
    | none => s
    | some d =>
      match d.paymentId with
      | none => s
      | some pid =>
        if provider ≠ DStatus.succeeded then s
        else if d.processed then s
        else
          let s1 := (updateDonationStatus s d.id DStatus.succeeded
            (some pid) true now).2
          let created :=
            if ¬ isTaskCompleted s1 s.currentLevel (some TaskType.donation) then
              createTask s1 s.currentLevel TaskType.donation now now true
            else (true, s1)
          if ¬ created.1 then created.2
          else
            let s2 := created.2
            if s.currentLevel + 1 ≤ MAX_LEVEL then
              let r := updateUserLevel s2 (s.currentLevel + 1) false
              if ¬ r.1 then r.2
              else
                let s3 := showLevelContent r.2 (s.currentLevel + 1)
                (setUserState s3 stLEVEL_CONTENT).2
            else (setUserState (showFinalLevel s2) stLEVEL_CONTENT).2

/-- handle_charity, the 'Благотворительность' button (matched on text
    alone): sets current_state = CHARITY_AMOUNT_INPUT. -/
def handleCharity (s : St) : St :=
  (setUserState s stCHARITY_AMOUNT_INPUT).2

/-- process_charity_amount (registered as the next-step handler after
    handle_charity): with a valid positive amount it mints a charity payment
    through payments/pay.py create_charity_payment, which records a donation
    with for_level = 0 — rejected by the donations CHECK (level >= 1), the
    returned False is ignored — and then sets CHARITY_AMOUNT_INPUT. -/
def processCharityAmount (s : St) (validAmount : Bool) (amount pid now : Nat) :
    St :=
  if ¬ validAmount then s
  else
    let s1 := (createDonation s 0 amount "RUB" DStatus.pending (some pid) now).2
    (setUserState s1 stCHARITY_AMOUNT_INPUT).2

/-- process_charity_amount_or_back with the '21 уровень' reply. -/
def processCharityBack (s : St) : St :=
  showLevelContent s 21

/-- check_charity_status, the 'Проверить статус пожертвования' button
    (matched on text alone): forces CHARITY_AMOUNT_INPUT, then reads the last
    level-0 donation; with one and a succeeded provider answer it calls
    update_donation_status (level-0 rows are unreachable, the donations CHECK
    rejects storing them, so this path never fires). -/
def checkCharityStatus (s : St) (provider : DStatus) (now : Nat) : St :=
  if ¬ s.userExists then s
  else
    let s1 := (setUserState s stCHARITY_AMOUNT_INPUT).2
    match getLastDonation s1 0 with
    | none => s1
    | some d =>
      match d.paymentId with
      | none => s1
      | some pid =>
        if provider = DStatus.succeeded then
          (updateDonationStatus s1 d.id DStatus.succeeded (some pid) true now).2
        else s1

/-- handle_start, the /start command.  ref describes a well-formed
    refNNN_MMM deep-link argument: none for a plain /start (or a malformed
    argument, whose parse error is caught and falls through to the normal
    flow), some selfRef otherwise.  In the single-user slice the referrer is
    another user, so user_repo.get_user(referrer_id) is None and the code
    reaches create_user(user_id) followed by
    referral_repo.create_referral(referrer_id, user_id, level) — a call with
    three arguments to a two-parameter method, whose TypeError skips the rest
    of the handler.  A self referral or an already-registered user falls
    through to the normal flow: create_user, then LANGUAGE_SELECTION when
    registration is incomplete and the main menu otherwise. -/
def handleStart (s : St) (ref : Option Bool) : St :=
  let normalFlow : St → St := fun s0 =>
    let s1 := (createUser s0).2
    if s1.regComplete then showMainMenu s1
    else (setUserState s1 stLANGUAGE_SELECTION).2
  match ref with
  | none => normalFlow s
  | some selfRef =>
    if selfRef then normalFlow s
    else if s.userExists ∧ s.regComplete then normalFlow s
    else (createUser s).2

/-- handle_language_selection (guard: state LANGUAGE_SELECTION): selecting
    Russian saves the language (creating the user_data row with
    viewed_level DEFAULT 1 when absent) and moves to MAIN_MENU; any other
    text re-prompts. -/
def handleLanguageSelection (s : St) (isRussian : Bool) : St :=
  if ¬ (s.userExists ∧ s.currentState = stLANGUAGE_SELECTION) then s
  else if isRussian then (setUserState (ensureUserDataRow s) stMAIN_MENU).2
  else s

/-- handle_accept_rules, the 'Принять' button (guard: state MAIN_MENU). -/
def handleAcceptRules (s : St) : St :=
  if ¬ (s.userExists ∧ s.currentState = stMAIN_MENU) then s
  else (setUserState s stREGISTRATION_NAME).2

/-- process_name_step (guard: state REGISTRATION_NAME). -/
def processNameStep (s : St) (valid : Bool) : St :=
  if ¬ (s.userExists ∧ s.currentState = stREGISTRATION_NAME) then s
  else if valid then (setUserState (ensureUserDataRow s) stREGISTRATION_BIRTHDATE).2
  else s

/-- process_birthdate_step (guard: state REGISTRATION_BIRTHDATE). -/
def processBirthdateStep (s : St) (valid : Bool) : St :=
  if ¬ (s.userExists ∧ s.currentState = stREGISTRATION_BIRTHDATE) then s
  else if valid then (setUserState (ensureUserDataRow s) stREGISTRATION_LOCATION).2
  else s

/-- process_location_step (guard: state REGISTRATION_LOCATION): saves the
    location and calls complete_registration — which resets current_level
    to 1 — then sets MAIN_MENU. -/
def processLocationStep (s : St) (valid : Bool) : St :=
  if ¬ (s.userExists ∧ s.currentState = stREGISTRATION_LOCATION) then s
  else if valid then
    let s1 := ensureUserDataRow s
    let s2 := (completeRegistration s1).2
    (setUserState s2 stMAIN_MENU).2
  else s

/-- start_game, the 'Начать игру' button (guard: state MAIN_MENU). -/
def startGame (s : St) : St :=
  if ¬ (s.userExists ∧ s.currentState = stMAIN_MENU) then s
  else showLevelContent s s.currentLevel

/-- show_faq (guard: state LEVEL_CONTENT): sets current_state = FAQ. -/
def showFaq (s : St) : St :=
  if ¬ (s.userExists ∧ s.currentState = stLEVEL_CONTENT) then s
  else (setUserState s stFAQ).2

/-- handle_level_navigation, a 'N уровень' message (guard: state
    LEVEL_CONTENT): shows the parsed level. -/
def handleLevelNavigation (s : St) (n : Nat) : St :=
  if ¬ (s.userExists ∧ s.currentState = stLEVEL_CONTENT) then s
  else showLevelContent s n

/-- handle_back, the 'Назад' button family (matched on text alone). -/
def handleBack (s : St) : St :=
  if ¬ s.userExists then s
  else if s.currentState = stCHARITY_AMOUNT_INPUT then showLevelContent s 21
  else if s.currentState = stFAQ then showLevelContent s 1
  else if s.currentState = stLEVEL_CONTENT ∨ s.currentState = stTASK_SELECTION ∨
          s.currentState = stTIME_TASK ∨ s.currentState = stREFERRAL_TASK ∨
          s.currentState = stDONATION_TASK then
    showLevelContent s (getViewedLevel s)
  else if s.currentState = stFINAL_LEVEL then showLevelContent s 21
  else showMainMenu s

/-! ## The payment poller (payment_poller in main.py)

One pass of the 60-second loop: it snapshots the pending donations, and for
each one skips already-processed rows and rows of a user already acted on in
this pass (the processed_users set; in the single-user slice a single flag),
asks the provider, applies a succeeded payment with the same
update_donation_status used interactively, then (for level > 0) inserts the
donation task (result ignored), bumps the level and sets LEVEL_CONTENT;
a canceled payment just has its status updated.  The provider's answers are
given as an association list from payment id to status (missing: pending);
Payment.find_one on a NULL payment id raises and is caught per donation. -/

def providerLookup (answers : List (Nat × DStatus)) (pid : Nat) : DStatus :=
  match answers.find? (fun a => decide (a.1 = pid)) with
  | some a => a.2
  | none => DStatus.pending

def pollerLoop (pending : List DonationRow)
    (answers : List (Nat × DStatus)) (now : Nat)
    (s : St) (userProcessed : Bool) : St :=
  match pending with
  | [] => s
  | p :: rest =>
    if userProcessed then pollerLoop rest answers now s userProcessed
    else if isDonationProcessed s p.id then pollerLoop rest answers now s userProcessed
    else
      match p.paymentId with
      | none => pollerLoop rest answers now s userProcessed
      | some pid =>
        match providerLookup answers pid with
        | DStatus.succeeded =>
          let s1 := (updateDonationStatus s p.id DStatus.succeeded
            (some pid) true now).2
          if p.level = 0 then
            pollerLoop rest answers now (setUserState s1 stMAIN_MENU).2 true
          else
            let s2 := (createTask s1 p.level TaskType.donation now now true).2
            let s3 := (updateUserLevel s2 (p.level + 1) false).2
            let s4 := (setUserState s3 stLEVEL_CONTENT).2
            pollerLoop rest answers now s4 true
        | DStatus.canceled =>
          let s1 := (updateDonationStatus s p.id DStatus.canceled
            (some pid) false now).2
          pollerLoop rest answers now s1 userProcessed
        | _ => pollerLoop rest answers now s userProcessed

/-- One pass of payment_poller. -/
def pollerPass (s : St) (answers : List (Nat × DStatus)) (now : Nat) : St :=
  pollerLoop (getPendingPayments s) answers now s false

/-! ## Event histories

An event is one delivered message (with its external inputs: wall clock,
validation outcome, provider answers) or one pass of the background poller.
The alphabet covers every handler of main.py that writes to the store;
handlers that only send messages (handle_about, handle_rules,
handle_level_rules, the community links, the admin statistics command) are
not events because they leave the store untouched. -/

inductive Ev where
  | start (ref : Option Bool)
  | language (isRussian : Bool)
  | acceptRules
  | nameStep (valid : Bool)
  | birthdateStep (valid : Bool)
  | locationStep (valid : Bool)
  | startGame
  | nextButton (now : Nat)
  | nextLevelRequest
  | nextLevelButton
  | timeTask (now : Nat)
  | startTime (now : Nat)
  | completeTime (now : Nat)
  | referralTask (now : Nat)
  | checkReferralStatus
  | donationSelect (paymentOk : Bool) (pid now : Nat)
  | checkDonation (provider : DStatus) (now : Nat)
  | charity
  | charityAmount (valid : Bool) (amount pid now : Nat)
  | charityBack
  | checkCharity (provider : DStatus) (now : Nat)
  | faq
  | levelNav (n : Nat)
  | back
  | poller (answers : List (Nat × DStatus)) (now : Nat)
deriving DecidableEq, Repr

/-- The effect of one event on the store. -/
def step (e : Ev) (s : St) : St :=
  match e with
  | Ev.start ref => handleStart s ref
  | Ev.language isRussian => handleLanguageSelection s isRussian
  | Ev.acceptRules => handleAcceptRules s
  | Ev.nameStep valid => processNameStep s valid
  | Ev.birthdateStep valid => processBirthdateStep s valid
  | Ev.locationStep valid => processLocationStep s valid
  | Ev.startGame => startGame s
  | Ev.nextButton now => handleNextButton s now
  | Ev.nextLevelRequest => handleNextLevelRequest s
  | Ev.nextLevelButton => handleNextLevelButton s
  | Ev.timeTask now => handleTimeTask s now
  | Ev.startTime now => startTimeTask s now
  | Ev.completeTime now => completeTimeTask s now
  | Ev.referralTask now => handleReferralTask s now
  | Ev.checkReferralStatus => handleCheckReferralStatus s
  | Ev.donationSelect ok pid now => handleDonationSelection s ok pid now
  | Ev.checkDonation provider now => checkDonationStatus s provider now
  | Ev.charity => handleCharity s
  | Ev.charityAmount valid amount pid now =>
      processCharityAmount s valid amount pid now
  | Ev.charityBack => processCharityBack s
  | Ev.checkCharity provider now => checkCharityStatus s provider now
  | Ev.faq => showFaq s
  | Ev.levelNav n => handleLevelNavigation s n
  | Ev.back => handleBack s
  | Ev.poller answers now => pollerPass s answers now

/-- Run a list of events, oldest first. -/
def runEvents (es : List Ev) (s : St) : St :=
  es.foldl (fun s0 e => step e s0) s

/-- A store state is reachable when some event history produces it from the
    empty store. -/
def Reachable (s : St) : Prop :=
  ∃ es : List Ev, s = runEvents es initSt

/-! ## Storage-level admissibility (storage/migrator.py)

These predicates state exactly what the storage layer itself enforces, as
created by Migrator.migrate: per-row CHECK constraints and UNIQUE
constraints.  They let us separate storage-enforced invariants from
application-logic invariants. -/

/-- Row constraints of the donations table: CHECK (level >= 1 AND
    level <= 21) and CHECK (amount > 0).  The status column is plain TEXT:
    the schema has no CHECK, trigger or FSM constraint on it. -/
def donationsRowValid (d : DonationRow) : Prop :=
  (1 ≤ d.level ∧ d.level ≤ MAX_LEVEL) ∧ 0 < d.amount

/-- What the storage layer alone allows for an UPDATE of a donations row:
    only that the new row satisfies the table's row constraints.  There is
    no storage-level relation between the old and the new status. -/
def donationsStorageAdmitsUpdate (_oldRow newRow : DonationRow) : Prop :=
  donationsRowValid newRow

/-- Row constraints of the tasks table: the level CHECK and
    valid_task_times CHECK (end_time >= start_time). -/
def tasksRowValid (t : TaskRow) : Prop :=
  (1 ≤ t.level ∧ t.level ≤ MAX_LEVEL) ∧ t.startTime ≤ t.endTime

/-- What the storage layer allows for an INSERT into tasks: the row
    constraints plus the tasks_unique UNIQUE (user_id, level, task_type)
    constraint against the existing rows of this user. -/
def tasksStorageAdmitsInsert (tasks : List TaskRow) (t : TaskRow) : Prop :=
  tasksRowValid t ∧
    ∀ t0 ∈ tasks, ¬ (t0.level = t.level ∧ t0.taskType = t.taskType)

/-- Row constraints of the referrals table: the level CHECK, the
    no_self_referral CHECK (referrer_id != referee_id); uniqueness of the
    (referrer_id, referee_id, level) triple is the referrals_unique
    constraint, stated against existing triples. -/
def referralRowValid (referrerId refereeId level : Nat) : Prop :=
  (1 ≤ level ∧ level ≤ MAX_LEVEL) ∧ referrerId ≠ refereeId

/-! ## The referral creation path (C6)

ReferralRepository.create_referral takes two parameters (referrer_id,
referee_id); main.py handle_start calls it with three arguments
(referrer_id, user_id, level), a TypeError.  Its INSERT also names only the
columns (referrer_id, referee_id, registration_date), while the referrals
table declares level INTEGER NOT NULL with no default, so the insert can
never satisfy the schema.  Both facts are embedded below. -/

/-- Parameters of ReferralRepository.create_referral after self. -/
def createReferralParamCount : Nat := 2

/-- Arguments passed at main.py line 453. -/
def handleStartCreateReferralArgCount : Nat := 3

/-- Columns of the referrals table that are NOT NULL. -/
def referralsNotNullCols : List String :=
  ["id", "referrer_id", "referee_id", "level"]

/-- Columns among those that an INSERT may omit anyway: id is SERIAL
    (has a sequence default); referral_date has DEFAULT NOW() and
    registration_date is nullable, so they are not listed. -/
def referralsColHasDefault : List String := ["id"]

/-- The column list of create_referral's INSERT INTO referrals. -/
def createReferralInsertCols : List String :=
  ["referrer_id", "referee_id", "registration_date"]

/-- Whether create_referral's INSERT satisfies every NOT NULL constraint of
    the referrals table. -/
def createReferralInsertOk : Bool :=
  referralsNotNullCols.all (fun c =>
    createReferralInsertCols.contains c || referralsColHasDefault.contains c)

/-- The two-user slice needed by the referral ledger: the set of user ids
    with a users row, and the stored referral edges as
    (referrer_id, referee_id) pairs (the only columns create_referral's
    INSERT would provide). -/
structure RefSt where
  users : List Nat
  referrals : List (Nat × Nat)
deriving DecidableEq, Repr

/-- ReferralRepository.create_referral(referrer_id, referee_id): checks the
    referrer exists; creates the referee's users row when missing (committed
    separately, so it survives a later rollback); rejects an existing
    (referrer, referee) pair; then INSERTs — which violates the level
    NOT NULL constraint, raising, rolling back and returning False. -/
def createReferral (s : RefSt) (referrerId refereeId : Nat) : Bool × RefSt :=
  if ¬ s.users.contains referrerId then (false, s)
  else
    let s1 := if s.users.contains refereeId then s
              else { s with users := s.users ++ [refereeId] }
    if s1.referrals.any (fun p => decide (p.1 = referrerId ∧ p.2 = refereeId)) then
      (false, s1)
    else if ¬ createReferralInsertOk then (false, s1)
    else (true, { s1 with referrals := s1.referrals ++ [(referrerId, refereeId)] })

/-! ## The progression invariant

covered s L says some task row at level L is completed — the unlock
predicate of the spec.  Inv is the inductive invariant of the event system:
it ties current_level to the completed-task ledger and carries the schema
facts needed to re-establish itself. -/

/-- Some task row in ts at level L is completed. -/
def coveredT (ts : List TaskRow) (L : Nat) : Prop :=
  ∃ t ∈ ts, t.level = L ∧ t.completed = true

/-- Some task row of s at level L is completed. -/
def covered (s : St) (L : Nat) : Prop := coveredT s.tasks L

/-- The inductive invariant of the event system. -/
def Inv (s : St) : Prop :=
  (s.userExists = false → s.tasks = [] ∧ s.donations = [] ∧ s.currentLevel = 1) ∧
  (1 ≤ s.currentLevel ∧ s.currentLevel ≤ MAX_LEVEL) ∧
  (∀ L, 1 ≤ L → L < s.currentLevel → covered s L) ∧
  (∀ t ∈ s.tasks, t.completed = true → ∀ L, 1 ≤ L → L < t.level → covered s L) ∧
  (∀ t ∈ s.tasks, 1 ≤ t.level ∧ t.level ≤ MAX_LEVEL) ∧
  (∀ t ∈ s.tasks,
    (t.taskType = TaskType.donation ∨ t.taskType = TaskType.auto) →
      t.completed = true) ∧
  (∀ d ∈ s.donations, 1 ≤ d.level ∧ d.level ≤ MAX_LEVEL) ∧
  (∀ d ∈ s.donations, ∀ L, 1 ≤ L → L < d.level → covered s L)

/-! ## Concrete event histories used as counterexamples -/

/-- A user levels up to 2 before completing registration (the 'Далее' button
    auto-completes level 1), then runs /start again and finishes
    registration, whose complete_registration resets current_level to 1. -/
def c2events : List Ev :=
  [Ev.start none, Ev.nextButton 0, Ev.start none, Ev.language true,
   Ev.acceptRules, Ev.nameStep true, Ev.birthdateStep true, Ev.locationStep true]

/-- Starting from state LEVEL_CONTENT at level L, complete a 24-hour time
    task and advance to L + 1. -/
def levelCycle (L : Nat) : List Ev :=
  [Ev.nextLevelRequest, Ev.timeTask (1000000 * L), Ev.startTime (1000000 * L),
   Ev.completeTime (1000000 * L + TASK_DURATION)]

/-- A full climb to level 21 (MAX_LEVEL) followed by a completed time task
    at level 21, reached through handle_next_level_button's
    show_task_status_details, which enters TASK_SELECTION at any level. -/
def climbEvents : List Ev :=
  [Ev.start none, Ev.nextButton 0] ++
  ((List.range 19).flatMap (fun i => levelCycle (i + 2))) ++
  [Ev.nextLevelButton, Ev.timeTask 30000000, Ev.startTime 30000000,
   Ev.completeTime (30000000 + TASK_DURATION)]

/-- The climb of climbEvents stopped right after starting the level-21 time
    task: the store holds an active (incomplete) time task at MAX_LEVEL and
    the user is in state TIME_TASK. -/
def c9climbPrefix : List Ev :=
  [Ev.start none, Ev.nextButton 0] ++
  ((List.range 19).flatMap (fun i => levelCycle (i + 2))) ++
  [Ev.nextLevelButton, Ev.timeTask 30000000, Ev.startTime 30000000]

/-- A store with an existing incomplete time task for level 3. -/
def c5state : St :=
  { userExists := true, regComplete := true, currentLevel := 3,
    currentState := stTIME_TASK, userData := some 3,
    tasks := [{ level := 3, taskType := TaskType.time, startTime := 0,
                endTime := TASK_DURATION, completed := false,
                completionTime := none }],
    donations := [], nextDonationId := 1 }

/-- A succeeded donations row. -/
def c4succRow : DonationRow :=
  { id := 1, level := 5, amount := 500, currency := "RUB",
    status := DStatus.succeeded, donationDate := 50, paymentId := some 9,
    processed := true }

/-- The same row moved back to pending by a raw row update. -/
def c4pendRow : DonationRow :=
  { c4succRow with status := DStatus.pending }

/-- A registered user at the final level about to donate to charity. -/
def charitySt : St :=
  { userExists := true, regComplete := true, currentLevel := 21,
    currentState := stCHARITY_AMOUNT_INPUT, userData := some 21,
    tasks := [], donations := [], nextDonationId := 1 }

/-- A store that hypothetically contains a stored level-0 donation (the
    donations CHECK prevents this state from ever arising; it is used to
    show that even then the apply path would fail). -/
def c7badSt : St :=
  { charitySt with donations :=
      [{ id := 1, level := 0, amount := 100, currency := "RUB",
         status := DStatus.pending, donationDate := 7, paymentId := some 9,
         processed := false }] }

/-- A user at level 3 browsing level 2, currently in state TASK_SELECTION. -/
def c8state : St :=
  { userExists := true, regComplete := true, currentLevel := 3,
    currentState := stTASK_SELECTION, userData := some 2,
    tasks := [{ level := 1, taskType := TaskType.auto, startTime := 0,
                endTime := 0, completed := true, completionTime := none },
              { level := 2, taskType := TaskType.time, startTime := 0,
                endTime := TASK_DURATION, completed := true,
                completionTime := some TASK_DURATION }],
    donations := [], nextDonationId := 1 }

/-- A freshly registered user who just pressed the 'Начать игру' button:
    state LEVEL_CONTENT at level 1, no tasks yet. -/
def c3events : List Ev :=
  [Ev.start none, Ev.language true, Ev.acceptRules, Ev.nameStep true,
   Ev.birthdateStep true, Ev.locationStep true, Ev.startGame]

/-- The store after c3events. -/
def c3state : St := runEvents c3events initSt

/-! ## The two racing callers of the apply-success path (C1)

Sequential composition first: an apply operation is either the interactive
check_donation_status (drives the provider answer succeeded) or one poller
pass whose provider answers succeeded for the given payment id. -/

inductive ApplyOp where
  | interactive (now : Nat)
  | background (now : Nat)
deriving DecidableEq, Repr

/-- Run one apply operation. -/
def runApply (pid : Nat) (s : St) (op : ApplyOp) : St :=
  match op with
  | ApplyOp.interactive now => checkDonationStatus s DStatus.succeeded now
  | ApplyOp.background now => pollerPass s [(pid, DStatus.succeeded)] now

/-- Run a list of apply operations, oldest first. -/
def runApplies (pid : Nat) (s : St) (ops : List ApplyOp) : St :=
  ops.foldl (runApply pid) s

/-- The donation-task rows of s at level L that are completed. -/
def donationTasksAt (s : St) (L : Nat) : List TaskRow :=
  s.tasks.filter (fun t =>
    decide (t.level = L ∧ t.taskType = TaskType.donation ∧ t.completed = true))

/-! ### Interleaved execution

The interactive handler and the poller run in different threads, each making
a sequence of database calls; the store serializes individual calls (each
repository method is one transaction).  We model each thread as a small
program over a shared store with thread-local snapshot variables, exactly
following the order of calls in check_donation_status (thread A) and the
poller body (thread B), and check every interleaving of the two.  A program
counter of 99 means the thread returned.  Thread A's initial reads
(the dispatch guard on current_state, get_user, get_last_donation, the
provider call and the snapshot processed check) are its first two steps;
its remaining steps are its writes and fresh reads in source order. -/

structure CSt where
  db : St
  aPC : Nat
  aLevel : Nat
  aDon : Option DonationRow
  bPC : Nat
  bPay : Option DonationRow
deriving DecidableEq, Repr

/-- One step of the interactive thread (check_donation_status). -/
def aStep (now : Nat) (c : CSt) : CSt :=
  match c.aPC with
  | 0 =>
    if c.db.userExists ∧ c.db.currentState = stDONATION_TASK then
      { c with aLevel := c.db.currentLevel, aPC := 1 }
    else { c with aPC := 99 }
  | 1 =>
    match getLastDonation c.db c.aLevel with
    | none => { c with aPC := 99 }
    | some d =>
      match d.paymentId with
      | none => { c with aPC := 99 }
      | some _ =>
        if d.processed then { c with aPC := 99 }
        else { c with aDon := some d, aPC := 2 }
  | 2 =>
    match c.aDon with
    | none => { c with aPC := 99 }
    | some d =>
      { c with db := (updateDonationStatus c.db d.id DStatus.succeeded
          d.paymentId true now).2, aPC := 3 }
  | 3 =>
    if isTaskCompleted c.db c.aLevel (some TaskType.donation) then
      { c with aPC := 5 }
    else { c with aPC := 4 }
  | 4 =>
    let r := createTask c.db c.aLevel TaskType.donation now now true
    if r.1 then { c with db := r.2, aPC := 5 }
    else { c with db := r.2, aPC := 99 }
  | 5 =>
    if c.aLevel + 1 ≤ MAX_LEVEL then
      let r := updateUserLevel c.db (c.aLevel + 1) false
      if r.1 then { c with db := r.2, aPC := 6 }
      else { c with db := r.2, aPC := 99 }
    else
      { c with db := (setUserState (showFinalLevel c.db) stLEVEL_CONTENT).2,
               aPC := 99 }
  | 6 =>
    { c with db := (setUserState (showLevelContent c.db (c.aLevel + 1))
        stLEVEL_CONTENT).2, aPC := 99 }
  | _ => c

/-- One step of the poller thread, provider answering succeeded. -/
def bStep (now : Nat) (c : CSt) : CSt :=
  match c.bPC with
  | 0 =>
    match getPendingPayments c.db with
    | [] => { c with bPC := 99 }
    | p :: _ => { c with bPay := some p, bPC := 1 }
  | 1 =>
    match c.bPay with
    | none => { c with bPC := 99 }
    | some p =>
      if isDonationProcessed c.db p.id then { c with bPC := 99 }
      else
        match p.paymentId with
        | none => { c with bPC := 99 }
        | some _ => { c with bPC := 2 }
  | 2 =>
    match c.bPay with
    | none => { c with bPC := 99 }
    | some p =>
      { c with db := (updateDonationStatus c.db p.id DStatus.succeeded
          p.paymentId true now).2, bPC := 3 }
  | 3 =>
    match c.bPay with
    | none => { c with bPC := 99 }
    | some p =>
      if p.level = 0 then
        { c with db := (setUserState c.db stMAIN_MENU).2, bPC := 99 }
      else
        { c with db := (createTask c.db p.level TaskType.donation now now
            true).2, bPC := 4 }
  | 4 =>
    match c.bPay with
    | none => { c with bPC := 99 }
    | some p =>
      { c with db := (updateUserLevel c.db (p.level + 1) false).2, bPC := 5 }
  | 5 =>
    { c with db := (setUserState c.db stLEVEL_CONTENT).2, bPC := 99 }
  | _ => c

/-- The pending unprocessed donation of the concrete race instance. -/
def c1donation : DonationRow :=
  { id := 1, level := 5, amount := 500, currency := "RUB",
    status := DStatus.pending, donationDate := 50, paymentId := some 9,
    processed := false }

/-- The concrete race instance: user at level 5 in state DONATION_TASK with
    one pending unprocessed donation (payment id 9) for level 5. -/
def c1st : St :=
  { userExists := true, regComplete := true, currentLevel := 5,
    currentState := stDONATION_TASK, userData := some 5, tasks := [],
    donations := [c1donation], nextDonationId := 2 }

def c1Init : CSt :=
  { db := c1st, aPC := 0, aLevel := 0, aDon := none, bPC := 0, bPay := none }

/-- Run a schedule: true runs the next interactive step (wall clock 100),
    false the next poller step (wall clock 200). -/
def runSched (sch : List Bool) : CSt :=
  sch.foldl (fun c b => if b then aStep 100 c else bStep 200 c) c1Init

/-- All interleavings of n steps of one thread with m of the other
    (fuel-indexed so that the kernel can reduce it). -/
def interleavingsAux : Nat → Nat → Nat → List (List Bool)
  | 0, _, _ => [[]]
  | _ + 1, 0, m => [List.replicate m false]
  | _ + 1, n + 1, 0 => [List.replicate (n + 1) true]
  | fuel + 1, n + 1, m + 1 =>
    (interleavingsAux fuel n (m + 1)).map (fun l => true :: l) ++
    (interleavingsAux fuel (n + 1) m).map (fun l => false :: l)

/-- All interleavings of n steps of one thread with m of the other. -/
def interleavings (n m : Nat) : List (List Bool) :=
  interleavingsAux (n + m) n m

/-- Thread A has 7 steps, thread B has 6. -/
def c1Scheds : List (List Bool) := interleavings 7 6

/-- The exactly-once outcome on the concrete race instance: level bumped to
    6 exactly once, one completed donation task at level 5, the donation
    succeeded and processed. -/
def c1FinalOk (c : CSt) : Bool :=
  decide (c.db.currentLevel = 6) &&
  decide ((donationTasksAt c.db 5).length = 1) &&
  (match c.db.donations with
   | [d] => decide (d.status = DStatus.succeeded ∧ d.processed = true)
   | _ => false)

/-- The donation row after a successful apply. -/
def appliedRow (d : DonationRow) (pid : Nat) : DonationRow :=
  { d with status := DStatus.succeeded, paymentId := some pid,
           processed := true }

/-- The completed donation-task row the apply path inserts. -/
def appliedTask (lvl now : Nat) : TaskRow :=
  { level := lvl, taskType := TaskType.donation, startTime := now,
    endTime := now, completed := true, completionTime := none }

/-! # Theorems -/

/-! ## Helper lemmas about the repository operations -/

/-- Full case characterization of update_user_level: either it fails and
    returns the state unchanged, or it succeeds and only writes
    min(level, MAX_LEVEL) into current_level. -/
theorem updateUserLevel_spec (s : St) (lvl : Nat) (force : Bool) :
    ((updateUserLevel s lvl force).1 = false ∧
      (updateUserLevel s lvl force).2 = s) ∨
    ((updateUserLevel s lvl force).1 = true ∧
      (updateUserLevel s lvl force).2 =
        { s with currentLevel := min lvl MAX_LEVEL } ∧
      1 ≤ min lvl MAX_LEVEL ∧ s.userExists = true) := by
  unfold updateUserLevel updateUserLevelWrite
  repeat' split
  all_goals first
    | (left; exact ⟨rfl, rfl⟩)
    | (right; refine ⟨rfl, rfl, by omega, by simp_all⟩)

theorem updateUserLevel_guard_fails (s : St) (lvl : Nat)
    (h : lvl ≤ s.currentLevel ∨ MAX_LEVEL < lvl) :
    updateUserLevel s lvl false = (false, s) := by
  unfold updateUserLevel updateUserLevelWrite
  simp only [Bool.false_eq_true, if_false]
  split
  · rfl
  · split
    · rfl
    · split
      · rfl
      · exfalso; omega

theorem updateUserLevel_mono (s : St) (lvl : Nat) :
    s.currentLevel ≤ ((updateUserLevel s lvl false).2).currentLevel := by
  unfold updateUserLevel updateUserLevelWrite
  simp only [Bool.false_eq_true, if_false]
  repeat' split
  all_goals dsimp only
  all_goals omega

theorem updateUserLevel_snd_bounds (s : St) (lvl : Nat) (force : Bool)
    (h1 : 1 ≤ s.currentLevel) (h2 : s.currentLevel ≤ MAX_LEVEL) :
    1 ≤ ((updateUserLevel s lvl force).2).currentLevel ∧
      ((updateUserLevel s lvl force).2).currentLevel ≤ MAX_LEVEL := by
  unfold updateUserLevel updateUserLevelWrite
  repeat' split
  all_goals dsimp only
  all_goals omega

theorem updateUserLevel_success_value (s : St) (lvl : Nat) (force : Bool)
    (h : (updateUserLevel s lvl force).1 = true) :
    ((updateUserLevel s lvl force).2).currentLevel = min lvl MAX_LEVEL := by
  rcases updateUserLevel_spec s lvl force with ⟨hf, _⟩ | ⟨_, h2, _⟩
  · rw [h] at hf; exact absurd hf (by simp)
  · rw [h2]

/-- update_user_level touches no field but current_level. -/
theorem updateUserLevel_frame (s : St) (lvl : Nat) (force : Bool) :
    ((updateUserLevel s lvl force).2).tasks = s.tasks ∧
    ((updateUserLevel s lvl force).2).donations = s.donations ∧
    ((updateUserLevel s lvl force).2).userExists = s.userExists ∧
    ((updateUserLevel s lvl force).2).regComplete = s.regComplete ∧
    ((updateUserLevel s lvl force).2).userData = s.userData ∧
    ((updateUserLevel s lvl force).2).currentState = s.currentState := by
  rcases updateUserLevel_spec s lvl force with ⟨_, h2⟩ | ⟨_, h2, _⟩ <;>
    rw [h2] <;> exact ⟨rfl, rfl, rfl, rfl, rfl, rfl⟩

/-- create_task with an existing (level, task_type) row: the unique
    constraint fires, nothing is written, False is returned. -/
theorem createTask_existing (s : St) (lvl : Nat) (ty : TaskType)
    (st en : Nat) (c : Bool) (t : TaskRow) (hmem : t ∈ s.tasks)
    (hl : t.level = lvl) (hty : t.taskType = ty) :
    createTask s lvl ty st en c = (false, s) := by
  unfold createTask
  have hany : s.tasks.any
      (fun t0 => decide (t0.level = lvl ∧ t0.taskType = ty)) = true := by
    rw [List.any_eq_true]
    exact ⟨t, hmem, by simp [hl, hty]⟩
  by_cases hU : s.userExists
  · by_cases hR : 1 ≤ lvl ∧ lvl ≤ MAX_LEVEL
    · by_cases hE : en < st
      · simp [hU, hR, hE]
      · simp only [hU, hR, hE]
        simp only [not_true, Bool.false_eq_true, if_false, if_true,
          not_false_iff, hany, ite_true, ite_false]
        simp [hE]
    · simp [hU, hR]
  · simp [hU]

/-- At most one task row per (level, task_type): create_task preserves the
    key-uniqueness of the tasks table. -/
def tasksUnique (ts : List TaskRow) : Prop :=
  ts.Pairwise (fun a b => ¬ (a.level = b.level ∧ a.taskType = b.taskType))

theorem createTask_preserves_unique (s : St) (lvl : Nat) (ty : TaskType)
    (st en : Nat) (c : Bool) (h : tasksUnique s.tasks) :
    tasksUnique ((createTask s lvl ty st en c).2).tasks := by
  unfold createTask
  split
  · exact h
  split
  · exact h
  split
  · exact h
  split
  · exact h
  · next hU hR hE hA =>
    simp only
    unfold tasksUnique
    rw [List.pairwise_append]
    refine ⟨h, by simp, ?_⟩
    intro a ha b hb
    simp only [List.mem_singleton] at hb
    subst hb
    simp only [Bool.not_eq_true, List.any_eq_false, decide_eq_true_eq] at hA
    intro hk
    exact hA a ha (by simpa using hk)

/-! ## Claim C2 -/

/-- C2 as frozen also asserts that currentLevel is non-decreasing over ANY
    event history; this exhibits a history on which it decreases: a user
    auto-unlocks level 2 through the 'Далее' button before finishing
    registration, and complete_registration then resets current_level to 1. -/
theorem c2_counterexample :
    (runEvents (c2events.take 2) initSt).currentLevel = 2 ∧
    (runEvents c2events initSt).currentLevel = 1 ∧
    ¬ (runEvents (c2events.take 2) initSt).currentLevel ≤
        (runEvents c2events initSt).currentLevel := by
  decide

theorem updateUserLevel_foldl_mono (ls : List Nat) (s : St) :
    s.currentLevel ≤
      (ls.foldl (fun s0 l => (updateUserLevel s0 l false).2) s).currentLevel := by
  induction ls generalizing s with
  | nil => exact le_refl _
  | cons a as ih =>
    exact le_trans (updateUserLevel_mono s a) (ih _)

/-- C2 (amended): update_user_level(u, L) without force fails, returning
    false and leaving the store unchanged, whenever L ≤ currentLevel(u) or
    L > MAX_LEVEL; consequently currentLevel is non-decreasing over any
    sequence of update_user_level calls (though not over arbitrary event
    histories, see the counterexample). -/
theorem c2_update_level_monotone (s : St) (lvl : Nat) (ls : List Nat)
    (h : lvl ≤ s.currentLevel ∨ MAX_LEVEL < lvl) :
    updateUserLevel s lvl false = (false, s) ∧
    s.currentLevel ≤
      (ls.foldl (fun s0 l => (updateUserLevel s0 l false).2) s).currentLevel :=
  ⟨updateUserLevel_guard_fails s lvl h, updateUserLevel_foldl_mono ls s⟩

theorem c2_update_level_monotone_witness :
    updateUserLevel c8state 2 false = (false, c8state) ∧
    c8state.currentLevel ≤
      (([5, 1, 30] : List Nat).foldl
        (fun s0 l => (updateUserLevel s0 l false).2) c8state).currentLevel :=
  c2_update_level_monotone c8state 2 [5, 1, 30] (by decide)

/-! ## Claim C4 -/

/-- C4 as frozen asserts the succeeded-is-terminal rule is enforced as a
    storage-level constraint; but the donations table of
    storage/migrator.py carries no CHECK, trigger or any constraint on
    status, so the storage layer admits a raw update moving a succeeded row
    back to pending. -/
theorem c4_counterexample :
    ¬ (∀ oldRow newRow : DonationRow, oldRow.status = DStatus.succeeded →
        donationsStorageAdmitsUpdate oldRow newRow →
        newRow.status = DStatus.succeeded) := by
  intro h
  have h2 := h c4succRow c4pendRow (by decide)
    (show donationsRowValid c4pendRow from ⟨⟨by decide, by decide⟩, by decide⟩)
  exact absurd h2 (by decide)

/-- C4 (amended): a succeeded donation can never be moved to another status
    by the repository operation update_donation_status — the rule is
    enforced by that application logic, not by the storage schema — while
    the (user, level, taskType) uniqueness of tasks is genuinely
    storage-level (any insert colliding with an existing key is
    inadmissible for the storage layer itself). -/
theorem c4_succeeded_terminal (s : St) (id2 : Nat) (st : DStatus)
    (pid : Option Nat) (proc : Bool) (now : Nat) (d : DonationRow)
    (ts : List TaskRow) (t t0 : TaskRow)
    (hd : findDonation s id2 = some d) (hs : d.status = DStatus.succeeded)
    (hst : st ≠ DStatus.succeeded) (hmem : t0 ∈ ts)
    (hl : t0.level = t.level) (hty : t0.taskType = t.taskType) :
    updateDonationStatus s id2 st pid proc now = (false, s) ∧
    ¬ tasksStorageAdmitsInsert ts t := by
  constructor
  · unfold updateDonationStatus
    rw [hd]
    simp [hs, hst]
  · intro hadm
    exact hadm.2 t0 hmem ⟨hl, hty⟩

theorem c4_succeeded_terminal_witness :
    updateDonationStatus
        { charitySt with donations := [c4succRow] } 1 DStatus.pending
        (some 9) false 77 =
      (false, { charitySt with donations := [c4succRow] }) ∧
    ¬ tasksStorageAdmitsInsert c8state.tasks
        { level := 1, taskType := TaskType.auto, startTime := 3, endTime := 3,
          completed := true, completionTime := none } :=
  c4_succeeded_terminal _ 1 DStatus.pending (some 9) false 77 c4succRow
    c8state.tasks _
    { level := 1, taskType := TaskType.auto, startTime := 0, endTime := 0,
      completed := true, completionTime := none }
    (by decide) (by decide) (by decide) (by decide) (by decide) (by decide)

/-! ## Claim C5 -/

/-- C5 as frozen says a re-attempt updates the existing row; in fact
    create_task is a plain INSERT: on an existing (level, type) row it
    returns false and the stored row keeps its old start_time — nothing is
    updated. -/
theorem c5_counterexample :
    createTask c5state 3 TaskType.time 100 (100 + TASK_DURATION) false =
      (false, c5state) ∧
    (c5state.tasks.all (fun t => decide (t.startTime ≠ 100))) = true := by
  decide

/-- C5 (amended): create_task called for a (level, taskType) for which a row
    already exists — completed or not — is a no-op returning false that
    creates no duplicate and modifies nothing, and create_task preserves the
    at-most-one-row-per-(level, taskType) uniqueness. -/
theorem c5_create_task_idempotent_guard (s : St) (lvl : Nat) (ty : TaskType)
    (st en : Nat) (c : Bool) (t : TaskRow) (hmem : t ∈ s.tasks)
    (hl : t.level = lvl) (hty : t.taskType = ty) (hu : tasksUnique s.tasks) :
    createTask s lvl ty st en c = (false, s) ∧
    tasksUnique ((createTask s lvl ty st en c).2).tasks := by
  refine ⟨createTask_existing s lvl ty st en c t hmem hl hty, ?_⟩
  exact createTask_preserves_unique s lvl ty st en c hu

theorem c5_create_task_idempotent_guard_witness :
    createTask c5state 3 TaskType.time 100 (100 + TASK_DURATION) true =
      (false, c5state) ∧
    tasksUnique
      ((createTask c5state 3 TaskType.time 100 (100 + TASK_DURATION)
        true).2).tasks :=
  c5_create_task_idempotent_guard c5state 3 TaskType.time 100
    (100 + TASK_DURATION) true
    { level := 3, taskType := TaskType.time, startTime := 0,
      endTime := TASK_DURATION, completed := false, completionTime := none }
    (by decide) (by decide) (by decide)
    (by unfold tasksUnique c5state; simp)

/-! ## Claim C6 -/

/-- C6 (code bug): creating a referral edge can never store anything.
    ReferralRepository.create_referral has two parameters while handle_start
    passes three arguments (TypeError), and even the two-argument body's
    INSERT omits the NOT NULL level column of the referrals table, so the
    insert is always rejected: after a first creation attempt the edge list
    is still empty, against the claim's one stored edge.  Self-referrals are
    indeed excluded, but by the schema's no_self_referral CHECK. -/
theorem c6_referral_creation_broken :
    createReferral { users := [42], referrals := [] } 42 100 =
      (false, { users := [42, 100], referrals := [] }) ∧
    createReferralInsertOk = false ∧
    createReferralParamCount ≠ handleStartCreateReferralArgCount ∧
    ¬ referralRowValid 7 7 3 := by
  refine ⟨by decide, by decide, by decide, ?_⟩
  intro h
  exact h.2 rfl

/-! ## Claim C7 -/

/-- C7 (code bug): a level-0 charity donation can never be stored — the
    donations CHECK (level >= 1) rejects create_donation(user, 0, ...), so
    the whole charity flow leaves the donations table empty; and even on a
    hypothetical stored level-0 row, update_donation_status would fail
    entirely (its unconditional task INSERT violates the tasks level CHECK
    and rolls the transaction back) rather than succeed without task/level
    effects. -/
theorem c7_charity_donation_rejected :
    createDonation charitySt 0 100 "RUB" DStatus.pending (some 9) 0 =
      (false, charitySt) ∧
    (processCharityAmount charitySt true 100 9 0).donations = [] ∧
    updateDonationStatus c7badSt 1 DStatus.succeeded (some 9) true 5 =
      (false, c7badSt) ∧
    ¬ donationsRowValid
        { id := 1, level := 0, amount := 100, currency := "RUB",
          status := DStatus.pending, donationDate := 7, paymentId := some 9,
          processed := false } := by
  refine ⟨by decide, by decide, by decide, ?_⟩
  intro h
  exact absurd h.1.1 (by decide)

/-! ## More helper lemmas -/

theorem createTask_spec (s : St) (lvl : Nat) (ty : TaskType) (st en : Nat)
    (c : Bool) :
    (createTask s lvl ty st en c).2 = s ∨
    (createTask s lvl ty st en c).2 =
      { s with tasks := s.tasks ++
        [{ level := lvl, taskType := ty, startTime := st, endTime := en,
           completed := c, completionTime := none }] } := by
  unfold createTask
  repeat' split
  all_goals simp

theorem setUserState_of_exists (s : St) (x : Nat) (hU : s.userExists = true) :
    setUserState s x = (true, { s with currentState := x }) := by
  unfold setUserState
  simp [hU]

theorem setViewedLevel_ok (s : St) (lvl : Nat) (hU : s.userExists = true)
    (h1 : 1 ≤ lvl) (h2 : lvl ≤ MAX_LEVEL) :
    setViewedLevel s lvl = (true, { s with userData := some lvl }) := by
  unfold setViewedLevel
  simp [hU, h1, h2]

theorem showLevelContent_of (s : St) (n : Nat) (hU : s.userExists = true)
    (h1 : 1 ≤ n) (h2 : n ≤ MAX_LEVEL) (h3 : n ≤ s.currentLevel) :
    showLevelContent s n =
      { s with userData := some n, currentState := stLEVEL_CONTENT } := by
  unfold showLevelContent
  rw [setViewedLevel_ok s n hU h1 h2]
  have hlt : ¬ ({ s with userData := some n } : St).currentLevel < n :=
    Nat.not_lt.mpr h3
  simp only [hU, hlt, and_false, if_false, ite_false]
  rw [if_pos ⟨h1, h2⟩]
  rw [setUserState_of_exists _ _ (by simp [hU])]

theorem updateUserLevel_succeeds (s : St) (lvl : Nat)
    (hU : s.userExists = true) (h1 : s.currentLevel < lvl)
    (h2 : lvl ≤ MAX_LEVEL) :
    updateUserLevel s lvl false = (true, { s with currentLevel := lvl }) := by
  unfold updateUserLevel updateUserLevelWrite
  have hM21 : MAX_LEVEL = 21 := rfl
  have hmin : min lvl MAX_LEVEL = lvl := min_eq_left h2
  simp only [Bool.false_eq_true, if_false]
  rw [if_neg (by simp [hU]), if_neg (Nat.not_lt.mpr h2),
    if_neg (Nat.not_le.mpr h1), if_neg (by simp [hU]),
    if_pos (⟨by omega, by omega⟩ :
      1 ≤ min lvl MAX_LEVEL ∧ min lvl MAX_LEVEL ≤ MAX_LEVEL), hmin]

theorem createTask_frame (s : St) (lvl : Nat) (ty : TaskType) (st en : Nat)
    (c : Bool) :
    ((createTask s lvl ty st en c).2).userExists = s.userExists ∧
    ((createTask s lvl ty st en c).2).currentLevel = s.currentLevel ∧
    ((createTask s lvl ty st en c).2).regComplete = s.regComplete ∧
    ((createTask s lvl ty st en c).2).currentState = s.currentState ∧
    ((createTask s lvl ty st en c).2).userData = s.userData ∧
    ((createTask s lvl ty st en c).2).donations = s.donations := by
  rcases createTask_spec s lvl ty st en c with h | h <;> rw [h] <;>
    exact ⟨rfl, rfl, rfl, rfl, rfl, rfl⟩

theorem getActiveTimeTask_facts (s : St) (lvl : Nat) (t : TaskRow)
    (h : getActiveTimeTask s lvl = some t) :
    t ∈ s.tasks ∧ t.level = lvl ∧ t.taskType = TaskType.time ∧
      t.completed = false := by
  unfold getActiveTimeTask at h
  have hmem := List.mem_of_find?_eq_some h
  have hp := List.find?_some h
  simp only [Bool.and_eq_true, decide_eq_true_eq, Bool.not_eq_true'] at hp
  exact ⟨hmem, hp.1.1, hp.1.2, hp.2⟩

theorem completeTask_covers (s : St) (lvl : Nat) (ty : TaskType) (now : Nat)
    (t : TaskRow) (hmem : t ∈ s.tasks) (hl : t.level = lvl)
    (hty : t.taskType = ty) (hc : t.completed = false) :
    isTaskCompleted ((completeTask s lvl ty now).2) lvl (some ty) = true := by
  unfold completeTask isTaskCompleted
  rw [List.any_eq_true]
  refine ⟨{ t with completed := true, completionTime := some now }, ?_, ?_⟩
  · simp only [List.mem_map]
    refine ⟨t, hmem, ?_⟩
    rw [if_pos ⟨hl, hty, hc⟩]
  · simp [hl, hty]

/-! ## Invariant machinery (claims C3 and C10)

The inductive invariant Inv is preserved by every event.  The lemmas follow
the layering of the code: first the repository operations, then the
handlers. -/

theorem coveredT_append_left (ts ts2 : List TaskRow) (L : Nat)
    (h : coveredT ts L) : coveredT (ts ++ ts2) L := by
  obtain ⟨t, ht, hp⟩ := h
  exact ⟨t, List.mem_append_left _ ht, hp⟩

theorem inv_of_fields (s s' : St) (hInv : Inv s)
    (hU : s'.userExists = s.userExists)
    (hL : s'.currentLevel = s.currentLevel)
    (hT : s'.tasks = s.tasks) (hD : s'.donations = s.donations) :
    Inv s' := by
  obtain ⟨h1, h2, h3, h4, h5, h6, h7, h8⟩ := hInv
  unfold Inv covered
  rw [hU, hL, hT, hD]
  exact ⟨h1, h2, h3, h4, h5, h6, h7, h8⟩

theorem setUserState_inv (s : St) (x : Nat) (hInv : Inv s) :
    Inv ((setUserState s x).2) := by
  unfold setUserState
  split
  · exact inv_of_fields s _ hInv rfl rfl rfl rfl
  · exact hInv

theorem setUserState_frame (s : St) (x : Nat) :
    ((setUserState s x).2).userExists = s.userExists ∧
    ((setUserState s x).2).currentLevel = s.currentLevel ∧
    ((setUserState s x).2).tasks = s.tasks ∧
    ((setUserState s x).2).donations = s.donations := by
  unfold setUserState
  split
  · exact ⟨rfl, rfl, rfl, rfl⟩
  · exact ⟨rfl, rfl, rfl, rfl⟩

theorem setViewedLevel_inv (s : St) (lvl : Nat) (hInv : Inv s) :
    Inv ((setViewedLevel s lvl).2) := by
  unfold setViewedLevel
  split
  · exact hInv
  split
  · exact inv_of_fields s _ hInv rfl rfl rfl rfl
  · exact hInv

theorem ensureUserDataRow_inv (s : St) (hInv : Inv s) :
    Inv (ensureUserDataRow s) := by
  unfold ensureUserDataRow
  split
  · exact inv_of_fields s _ hInv rfl rfl rfl rfl
  · exact hInv

theorem createUser_inv (s : St) (hInv : Inv s) :
    Inv ((createUser s).2) := by
  obtain ⟨h1, h2, h3, h4, h5, h6, h7, h8⟩ := hInv
  unfold createUser
  split
  · exact ⟨h1, h2, h3, h4, h5, h6, h7, h8⟩
  · next hne =>
    simp only [Bool.not_eq_true] at hne
    obtain ⟨ht, hd, hl⟩ := h1 hne
    unfold Inv covered coveredT
    refine ⟨?_, ?_, ?_, ?_, ?_, ?_, ?_, ?_⟩ <;> simp [ht, hd] <;>
      intros <;> first
      | exact of_decide_eq_true rfl
      | omega

theorem completeRegistration_inv (s : St) (hInv : Inv s) :
    Inv ((completeRegistration s).2) := by
  obtain ⟨h1, h2, h3, h4, h5, h6, h7, h8⟩ := hInv
  unfold completeRegistration
  split
  · next hU =>
    refine ⟨?_, ⟨Nat.le_refl 1, of_decide_eq_true rfl⟩, ?_, h4, h5, h6, h7, h8⟩
    · intro h
      simp [hU] at h
    · intro L hL1 hL2
      simp only at hL2
      omega
  · exact ⟨h1, h2, h3, h4, h5, h6, h7, h8⟩

theorem updateUserLevel_inv (s : St) (lvl : Nat) (hInv : Inv s)
    (hcov : s.userExists = true →
      ∀ L, 1 ≤ L → L < lvl → covered s L) :
    Inv ((updateUserLevel s lvl false).2) := by
  obtain ⟨h1, h2, h3, h4, h5, h6, h7, h8⟩ := hInv
  rcases updateUserLevel_spec s lvl false with ⟨_, hSt⟩ | ⟨_, hSt, hge1, hU⟩
  · rw [hSt]; exact ⟨h1, h2, h3, h4, h5, h6, h7, h8⟩
  · rw [hSt]
    refine ⟨?_, ⟨hge1, Nat.min_le_right _ _⟩, ?_, h4, h5, h6, h7, h8⟩
    · intro h
      rw [show ({ s with currentLevel := min lvl MAX_LEVEL } : St).userExists
          = s.userExists from rfl, hU] at h
      exact absurd h (by decide)
    · intro L hL1 hL2
      have hlt : L < lvl := lt_of_lt_of_le hL2 (Nat.min_le_left _ _)
      exact hcov hU L hL1 hlt

theorem isTaskCompleted_covered (s : St) (lvl : Nat) (ty : Option TaskType)
    (h : isTaskCompleted s lvl ty = true) : covered s lvl := by
  unfold isTaskCompleted at h
  rw [List.any_eq_true] at h
  obtain ⟨t, hmem, hp⟩ := h
  simp only [Bool.and_eq_true, decide_eq_true_eq] at hp
  exact ⟨t, hmem, hp.1.1, hp.1.2⟩

/-- Downward closure: a covered level has every level below it covered
    (conjunct 4 of the invariant applied to the covering row). -/
theorem covered_upto (s : St) (lvl : Nat) (hInv : Inv s)
    (h : covered s lvl) : ∀ L, 1 ≤ L → L ≤ lvl → covered s L := by
  intro L hL1 hL2
  obtain ⟨t, hmem, hlev, hcomp⟩ := h
  rcases Nat.eq_or_lt_of_le hL2 with he | hlt
  · rw [he]; exact ⟨t, hmem, hlev, hcomp⟩
  · exact hInv.2.2.2.1 t hmem hcomp L hL1 (by rwa [hlev])

theorem findDonation_mem (s : St) (id2 : Nat) (d : DonationRow)
    (h : findDonation s id2 = some d) : d ∈ s.donations ∧ d.id = id2 := by
  unfold findDonation at h
  exact ⟨List.mem_of_find?_eq_some h, by simpa using List.find?_some h⟩

/-- Replacing donation rows level-preservingly (up to picking the level of
    another stored row) preserves the invariant. -/
theorem inv_donmap (s : St) (f : DonationRow → DonationRow)
    (hf : ∀ x ∈ s.donations, ∃ y ∈ s.donations, (f x).level = y.level)
    (hInv : Inv s) :
    Inv { s with donations := s.donations.map f } := by
  obtain ⟨h1, h2, h3, h4, h5, h6, h7, h8⟩ := hInv
  refine ⟨?_, h2, h3, h4, h5, h6, ?_, ?_⟩
  · intro h
    have h' := h1 h
    exact ⟨h'.1, by rw [h'.2.1]; rfl, h'.2.2⟩
  · intro x' hx'
    have hx2 : x' ∈ s.donations.map f := hx'
    rw [List.mem_map] at hx2
    obtain ⟨x, hx, hfx⟩ := hx2
    obtain ⟨y, hy, hlev⟩ := hf x hx
    rw [← hfx, hlev]
    exact h7 y hy
  · intro x' hx' L hL1 hL2
    have hx2 : x' ∈ s.donations.map f := hx'
    rw [List.mem_map] at hx2
    obtain ⟨x, hx, hfx⟩ := hx2
    obtain ⟨y, hy, hlev⟩ := hf x hx
    rw [← hfx, hlev] at hL2
    exact h8 y hy L hL1 hL2

/-- Appending a task row whose schema facts and coverage obligations hold
    preserves the invariant. -/
theorem inv_taskappend (s : St) (tr : TaskRow) (hInv : Inv s)
    (hU : s.userExists = true)
    (hrange : 1 ≤ tr.level ∧ tr.level ≤ MAX_LEVEL)
    (hty : tr.taskType = TaskType.donation ∨ tr.taskType = TaskType.auto →
      tr.completed = true)
    (hcov : tr.completed = true → ∀ L, 1 ≤ L → L < tr.level → covered s L) :
    Inv { s with tasks := s.tasks ++ [tr] } := by
  obtain ⟨h1, h2, h3, h4, h5, h6, h7, h8⟩ := hInv
  refine ⟨?_, h2, ?_, ?_, ?_, ?_, h7, ?_⟩
  · intro h
    have h0 : s.userExists = false := h
    rw [h0] at hU
    exact absurd hU (by decide)
  · intro L hL1 hL2
    exact coveredT_append_left _ _ _ (h3 L hL1 hL2)
  · intro t htm hcomp L hL1 hL2
    have htm2 : t ∈ s.tasks ++ [tr] := htm
    rcases List.mem_append.mp htm2 with hold | hnew
    · exact coveredT_append_left _ _ _ (h4 t hold hcomp L hL1 hL2)
    · have ht : t = tr := by simpa using hnew
      subst ht
      exact coveredT_append_left _ _ _ (hcov hcomp L hL1 hL2)
  · intro t htm
    have htm2 : t ∈ s.tasks ++ [tr] := htm
    rcases List.mem_append.mp htm2 with hold | hnew
    · exact h5 t hold
    · have ht : t = tr := by simpa using hnew
      rw [ht]; exact hrange
  · intro t htm hd
    have htm2 : t ∈ s.tasks ++ [tr] := htm
    rcases List.mem_append.mp htm2 with hold | hnew
    · exact h6 t hold hd
    · have ht : t = tr := by simpa using hnew
      subst ht
      exact hty hd
  · intro d hdm L hL1 hL2
    exact coveredT_append_left _ _ _ (h8 d hdm L hL1 hL2)

/-- create_task preserves the invariant, given the coverage obligation for a
    completed insert and completedness of donation/auto inserts. -/
theorem createTask_inv (s : St) (lvl : Nat) (ty : TaskType) (st en : Nat)
    (c : Bool) (hInv : Inv s)
    (hcov : c = true → ∀ L, 1 ≤ L → L < lvl → covered s L)
    (hty : ty = TaskType.donation ∨ ty = TaskType.auto → c = true) :
    Inv ((createTask s lvl ty st en c).2) := by
  unfold createTask
  split
  · exact hInv
  split
  · exact hInv
  split
  · exact hInv
  split
  · exact hInv
  rename_i hU hrange hord hdup
  have hU' : s.userExists = true := not_not.mp hU
  have hrange' : 1 ≤ lvl ∧ lvl ≤ MAX_LEVEL := not_not.mp hrange
  exact inv_taskappend s
    { level := lvl, taskType := ty, startTime := st, endTime := en,
      completed := c, completionTime := none }
    hInv hU' hrange' hty hcov

theorem createTask_covered_mono (s : St) (lvl : Nat) (ty : TaskType)
    (st en : Nat) (c : Bool) (L : Nat) (hc : covered s L) :
    covered ((createTask s lvl ty st en c).2) L := by
  rcases createTask_spec s lvl ty st en c with h | h <;> rw [h]
  · exact hc
  · exact coveredT_append_left _ _ _ hc

theorem updateUserLevel_covered_mono (s : St) (lvl : Nat) (force : Bool)
    (L : Nat) (hc : covered s L) :
    covered ((updateUserLevel s lvl force).2) L := by
  unfold covered
  rw [(updateUserLevel_frame s lvl force).1]
  exact hc

theorem setUserState_covered_mono (s : St) (x : Nat) (L : Nat)
    (hc : covered s L) : covered ((setUserState s x).2) L := by
  unfold covered
  rw [(setUserState_frame s x).2.2.1]
  exact hc

/-- complete_task only turns completed flags on, so coverage persists. -/
theorem completeTask_covered_mono (s : St) (lvl : Nat) (ty : TaskType)
    (now : Nat) (L : Nat) (hc : covered s L) :
    covered ((completeTask s lvl ty now).2) L := by
  obtain ⟨t, hmem, hlev, hcomp⟩ := hc
  have hkeep : (if t.level = lvl ∧ t.taskType = ty ∧ t.completed = false then
      { t with completed := true, completionTime := some now } else t) = t := by
    rw [if_neg]
    intro hcond
    rw [hcond.2.2] at hcomp
    exact absurd hcomp (by decide)
  refine ⟨t, ?_, hlev, hcomp⟩
  show t ∈ s.tasks.map _
  rw [List.mem_map]
  exact ⟨t, hmem, hkeep⟩

/-- complete_task preserves the invariant, given coverage below the level at
    which the completion happens. -/
theorem completeTask_inv (s : St) (lvl : Nat) (ty : TaskType) (now : Nat)
    (hInv : Inv s)
    (hcov : ∀ L, 1 ≤ L → L < lvl → covered s L) :
    Inv ((completeTask s lvl ty now).2) := by
  obtain ⟨h1, h2, h3, h4, h5, h6, h7, h8⟩ := hInv
  have heq : (completeTask s lvl ty now).2 =
      { s with tasks := s.tasks.map (fun t =>
        if t.level = lvl ∧ t.taskType = ty ∧ t.completed = false then
          { t with completed := true, completionTime := some now }
        else t) } := rfl
  rw [heq]
  have hmono : ∀ L, covered s L → covered ((completeTask s lvl ty now).2) L :=
    fun L hc => completeTask_covered_mono s lvl ty now L hc
  rw [heq] at hmono
  refine ⟨?_, h2, ?_, ?_, ?_, ?_, h7, ?_⟩
  · intro h
    have h' := h1 h
    exact ⟨by rw [show (s.tasks.map _ : List TaskRow) =
      s.tasks.map _ from rfl, h'.1]; rfl, h'.2.1, h'.2.2⟩
  · intro L hL1 hL2
    exact hmono L (h3 L hL1 hL2)
  · intro t htm hcomp L hL1 hL2
    have htm2 : t ∈ s.tasks.map _ := htm
    rw [List.mem_map] at htm2
    obtain ⟨t0, ht0, hft⟩ := htm2
    by_cases hcond : t0.level = lvl ∧ t0.taskType = ty ∧ t0.completed = false
    · rw [if_pos hcond] at hft
      have hlevt : t.level = t0.level := by rw [← hft]
      rw [hlevt, hcond.1] at hL2
      exact hmono L (hcov L hL1 hL2)
    · rw [if_neg hcond] at hft
      rw [← hft] at hcomp
      rw [← hft] at hL2
      exact hmono L (h4 t0 ht0 hcomp L hL1 hL2)
  · intro t htm
    have htm2 : t ∈ s.tasks.map _ := htm
    rw [List.mem_map] at htm2
    obtain ⟨t0, ht0, hft⟩ := htm2
    by_cases hcond : t0.level = lvl ∧ t0.taskType = ty ∧ t0.completed = false
    · rw [if_pos hcond] at hft
      rw [← hft]
      exact h5 t0 ht0
    · rw [if_neg hcond] at hft
      rw [← hft]
      exact h5 t0 ht0
  · intro t htm hd
    have htm2 : t ∈ s.tasks.map _ := htm
    rw [List.mem_map] at htm2
    obtain ⟨t0, ht0, hft⟩ := htm2
    by_cases hcond : t0.level = lvl ∧ t0.taskType = ty ∧ t0.completed = false
    · rw [if_pos hcond] at hft
      rw [← hft]
    · rw [if_neg hcond] at hft
      rw [← hft] at hd
      rw [← hft]
      exact h6 t0 ht0 hd
  · intro d hdm L hL1 hL2
    exact hmono L (h8 d hdm L hL1 hL2)

/-- create_donation preserves the invariant, given coverage below the new
    row's level. -/
theorem createDonation_inv (s : St) (lvl amount : Nat) (cur : String)
    (st : DStatus) (pid : Option Nat) (now : Nat) (hInv : Inv s)
    (hcov : ∀ L, 1 ≤ L → L < lvl → covered s L) :
    Inv ((createDonation s lvl amount cur st pid now).2) := by
  obtain ⟨h1, h2, h3, h4, h5, h6, h7, h8⟩ := hInv
  unfold createDonation
  split
  · exact ⟨h1, h2, h3, h4, h5, h6, h7, h8⟩
  split
  · exact ⟨h1, h2, h3, h4, h5, h6, h7, h8⟩
  split
  · exact ⟨h1, h2, h3, h4, h5, h6, h7, h8⟩
  rename_i hU hrange hamt
  have hU' : s.userExists = true := not_not.mp hU
  have hrange' : 1 ≤ lvl ∧ lvl ≤ MAX_LEVEL := not_not.mp hrange
  refine ⟨?_, h2, h3, h4, h5, h6, ?_, ?_⟩
  · intro h
    have h0 : s.userExists = false := h
    rw [h0] at hU'
    exact absurd hU' (by decide)
  · intro d hdm
    have hdm2 : d ∈ s.donations ++
      [{ id := s.nextDonationId, level := lvl, amount := amount,
         currency := cur, status := st, donationDate := now,
         paymentId := pid, processed := false }] := hdm
    rcases List.mem_append.mp hdm2 with hold | hnew
    · exact h7 d hold
    · have hd : d = { id := s.nextDonationId, level := lvl, amount := amount,
                      currency := cur, status := st, donationDate := now,
                      paymentId := pid, processed := false } := by
        simpa using hnew
      rw [hd]
      exact hrange'
  · intro d hdm L hL1 hL2
    have hdm2 : d ∈ s.donations ++
      [{ id := s.nextDonationId, level := lvl, amount := amount,
         currency := cur, status := st, donationDate := now,
         paymentId := pid, processed := false }] := hdm
    rcases List.mem_append.mp hdm2 with hold | hnew
    · exact h8 d hold L hL1 hL2
    · have hd : d = { id := s.nextDonationId, level := lvl, amount := amount,
                      currency := cur, status := st, donationDate := now,
                      paymentId := pid, processed := false } := by
        simpa using hnew
      rw [hd] at hL2
      exact hcov L hL1 hL2

/-- update_donation_status preserves the invariant unconditionally: the
    coverage obligation of the task row it may insert is supplied by the
    invariant itself (conjunct 8 for the stored donation row). -/
theorem updateDonationStatus_inv (s : St) (id2 : Nat) (st : DStatus)
    (pid : Option Nat) (pr : Bool) (now : Nat) (hInv : Inv s) :
    Inv ((updateDonationStatus s id2 st pid pr now).2) := by
  unfold updateDonationStatus
  cases hfd : findDonation s id2 with
  | none => exact hInv
  | some d =>
    obtain ⟨hdm, hdid⟩ := findDonation_mem s id2 d hfd
    have hU' : s.userExists = true := by
      by_contra hcc
      have h0 := hInv.1 (by simpa using hcc)
      rw [h0.2.1] at hdm
      exact absurd hdm (List.not_mem_nil d)
    have hs1 : Inv { s with donations := s.donations.map (fun x =>
        if x.id = id2 then
          { d with status := st,
                   paymentId := (match pid with
                                 | some p => some p
                                 | none => d.paymentId),
                   processed := pr }
        else x) } := by
      refine inv_donmap s _ ?_ hInv
      intro x hx
      by_cases hid : x.id = id2
      · exact ⟨d, hdm, by simp [hid]⟩
      · exact ⟨x, hx, by simp [hid]⟩
    dsimp only
    split
    · exact hInv
    split
    · split
      · exact hInv
      · split
        · exact hs1
        · rename_i hsucc hrange hdup
          have hrange' : 1 ≤ d.level ∧ d.level ≤ MAX_LEVEL := not_not.mp hrange
          refine inv_taskappend _
            { level := d.level, taskType := TaskType.donation,
              startTime := now, endTime := now, completed := true,
              completionTime := none }
            hs1 hU' hrange' (fun _ => rfl) ?_
          intro _ L hL1 hL2
          exact hInv.2.2.2.2.2.2.2 d hdm L hL1 hL2
    · exact hs1

theorem updateDonationStatus_frame (s : St) (id2 : Nat) (st : DStatus)
    (pid : Option Nat) (pr : Bool) (now : Nat) :
    ((updateDonationStatus s id2 st pid pr now).2).userExists = s.userExists ∧
    ((updateDonationStatus s id2 st pid pr now).2).currentLevel =
      s.currentLevel ∧
    ((updateDonationStatus s id2 st pid pr now).2).currentState =
      s.currentState ∧
    ((updateDonationStatus s id2 st pid pr now).2).userData = s.userData := by
  unfold updateDonationStatus
  cases hfd : findDonation s id2 with
  | none => exact ⟨rfl, rfl, rfl, rfl⟩
  | some d =>
    dsimp only
    split
    · exact ⟨rfl, rfl, rfl, rfl⟩
    split
    · split
      · exact ⟨rfl, rfl, rfl, rfl⟩
      · split
        · exact ⟨rfl, rfl, rfl, rfl⟩
        · exact ⟨rfl, rfl, rfl, rfl⟩
    · exact ⟨rfl, rfl, rfl, rfl⟩

theorem updateDonationStatus_covered_mono (s : St) (id2 : Nat) (st : DStatus)
    (pid : Option Nat) (pr : Bool) (now : Nat) (L : Nat) (hc : covered s L) :
    covered ((updateDonationStatus s id2 st pid pr now).2) L := by
  unfold updateDonationStatus
  cases hfd : findDonation s id2 with
  | none => exact hc
  | some d =>
    dsimp only
    split
    · exact hc
    split
    · split
      · exact hc
      · split
        · exact hc
        · exact coveredT_append_left _ _ _ hc
    · exact hc

/-- For a completed donation- or auto-type insert, the target level is
    covered afterwards whether or not the INSERT went through: on conflict
    the existing row of that type is completed by invariant conjunct 6. -/
theorem createTask_completed_covered (s : St) (lvl : Nat) (ty : TaskType)
    (st en : Nat) (hInv : Inv s) (hU : s.userExists = true)
    (hrange : 1 ≤ lvl ∧ lvl ≤ MAX_LEVEL) (hord : st ≤ en)
    (hty : ty = TaskType.donation ∨ ty = TaskType.auto) :
    covered ((createTask s lvl ty st en true).2) lvl := by
  unfold createTask
  rw [if_neg (by simp [hU]), if_neg (not_not_intro hrange),
    if_neg (Nat.not_lt.mpr hord)]
  split
  · rename_i hdup
    rw [List.any_eq_true] at hdup
    obtain ⟨t, hmem, hp⟩ := hdup
    rw [decide_eq_true_eq] at hp
    have hcomp := hInv.2.2.2.2.2.1 t hmem (by rw [hp.2]; exact hty)
    exact ⟨t, hmem, hp.1, hcomp⟩
  · refine ⟨{ level := lvl, taskType := ty, startTime := st, endTime := en,
              completed := true, completionTime := none }, ?_, rfl, rfl⟩
    exact List.mem_append_right _ (List.mem_singleton.mpr rfl)

theorem showLevelContent_inv (s : St) (n : Nat) (hInv : Inv s) :
    Inv (showLevelContent s n) := by
  unfold showLevelContent
  simp only []
  repeat' split
  all_goals first
    | exact setUserState_inv _ _ (setViewedLevel_inv s n hInv)
    | exact setViewedLevel_inv s n hInv

theorem showFinalLevel_inv (s : St) (hInv : Inv s) :
    Inv (showFinalLevel s) :=
  setUserState_inv s _ hInv

theorem showMainMenu_inv (s : St) (hInv : Inv s) :
    Inv (showMainMenu s) :=
  setUserState_inv s _ hInv

theorem showTaskSelection_inv (s : St) (hInv : Inv s) :
    Inv (showTaskSelection s) := by
  unfold showTaskSelection
  split
  · exact hInv
  split
  · exact showFinalLevel_inv s hInv
  · exact setUserState_inv s _ hInv

theorem showTaskStatusDetails_inv (s : St) (hInv : Inv s) :
    Inv (showTaskStatusDetails s) :=
  setUserState_inv s _ hInv

theorem startTimeTask_inv (s : St) (now : Nat) (hInv : Inv s) :
    Inv (startTimeTask s now) := by
  unfold startTimeTask
  split
  · exact hInv
  · refine createTask_inv s _ TaskType.time now _ false hInv ?_ ?_
    · intro h
      exact absurd h (by decide)
    · intro h
      rcases h with h | h <;> exact absurd h (by decide)

theorem handleTimeTask_inv (s : St) (now : Nat) (hInv : Inv s) :
    Inv (handleTimeTask s now) := by
  unfold handleTimeTask
  split
  · exact hInv
  split
  · split
    · exact setUserState_inv s _ hInv
    · refine setUserState_inv _ _ (completeTask_inv s _ TaskType.time now hInv ?_)
      intro L hL1 hL2
      exact hInv.2.2.1 L hL1 hL2
  · exact setUserState_inv s _ hInv

theorem handleReferralTask_inv (s : St) (now : Nat) (hInv : Inv s) :
    Inv (handleReferralTask s now) := by
  unfold handleReferralTask
  split
  · exact hInv
  simp only []
  split
  · refine setUserState_inv _ _ (createTask_inv s _ TaskType.referral now _ false hInv ?_ ?_)
    · intro h
      exact absurd h (by decide)
    · intro h
      rcases h with h | h <;> exact absurd h (by decide)
  · exact setUserState_inv s _ hInv

theorem handleDonationSelection_inv (s : St) (paymentOk : Bool)
    (pid now : Nat) (hInv : Inv s) :
    Inv (handleDonationSelection s paymentOk pid now) := by
  unfold handleDonationSelection
  split
  · exact hInv
  split
  · exact hInv
  simp only []
  split
  · exact setUserState_inv s _ hInv
  split
  · refine createDonation_inv _ _ 500 "RUB" DStatus.pending (some pid) now
      (setUserState_inv s _ hInv) ?_
    intro L hL1 hL2
    exact (setUserState_inv s _ hInv).2.2.1 L hL1 hL2
  · exact setUserState_inv s _ hInv

theorem handleCharity_inv (s : St) (hInv : Inv s) :
    Inv (handleCharity s) :=
  setUserState_inv s _ hInv

theorem processCharityAmount_inv (s : St) (validAmount : Bool)
    (amount pid now : Nat) (hInv : Inv s) :
    Inv (processCharityAmount s validAmount amount pid now) := by
  unfold processCharityAmount
  split
  · exact hInv
  simp only []
  refine setUserState_inv _ _ (createDonation_inv s 0 amount "RUB"
    DStatus.pending (some pid) now hInv ?_)
  intro L hL1 hL2
  exact absurd hL2 (by omega)

theorem processCharityBack_inv (s : St) (hInv : Inv s) :
    Inv (processCharityBack s) :=
  showLevelContent_inv s 21 hInv

theorem checkCharityStatus_inv (s : St) (provider : DStatus) (now : Nat)
    (hInv : Inv s) : Inv (checkCharityStatus s provider now) := by
  unfold checkCharityStatus
  split
  · exact hInv
  simp only []
  split
  · exact setUserState_inv s _ hInv
  split
  · exact setUserState_inv s _ hInv
  split
  · exact updateDonationStatus_inv _ _ DStatus.succeeded _ true now
      (setUserState_inv s _ hInv)
  · exact setUserState_inv s _ hInv

theorem handleStart_inv (s : St) (ref : Option Bool) (hInv : Inv s) :
    Inv (handleStart s ref) := by
  have hNF : ∀ s0 : St, Inv s0 →
      Inv (if (createUser s0).2.regComplete then showMainMenu (createUser s0).2
           else (setUserState (createUser s0).2 stLANGUAGE_SELECTION).2) := by
    intro s0 h0
    split
    · exact showMainMenu_inv _ (createUser_inv s0 h0)
    · exact setUserState_inv _ _ (createUser_inv s0 h0)
  unfold handleStart
  simp only []
  split
  · exact hNF s hInv
  · split
    · exact hNF s hInv
    split
    · exact hNF s hInv
    · exact createUser_inv s hInv

theorem handleLanguageSelection_inv (s : St) (isRussian : Bool)
    (hInv : Inv s) : Inv (handleLanguageSelection s isRussian) := by
  unfold handleLanguageSelection
  split
  · exact hInv
  split
  · exact setUserState_inv _ _ (ensureUserDataRow_inv s hInv)
  · exact hInv

theorem handleAcceptRules_inv (s : St) (hInv : Inv s) :
    Inv (handleAcceptRules s) := by
  unfold handleAcceptRules
  split
  · exact hInv
  · exact setUserState_inv s _ hInv

theorem processNameStep_inv (s : St) (valid : Bool) (hInv : Inv s) :
    Inv (processNameStep s valid) := by
  unfold processNameStep
  split
  · exact hInv
  split
  · exact setUserState_inv _ _ (ensureUserDataRow_inv s hInv)
  · exact hInv

theorem processBirthdateStep_inv (s : St) (valid : Bool) (hInv : Inv s) :
    Inv (processBirthdateStep s valid) := by
  unfold processBirthdateStep
  split
  · exact hInv
  split
  · exact setUserState_inv _ _ (ensureUserDataRow_inv s hInv)
  · exact hInv

theorem processLocationStep_inv (s : St) (valid : Bool) (hInv : Inv s) :
    Inv (processLocationStep s valid) := by
  unfold processLocationStep
  split
  · exact hInv
  split
  · exact setUserState_inv _ _
      (completeRegistration_inv _ (ensureUserDataRow_inv s hInv))
  · exact hInv

theorem startGame_inv (s : St) (hInv : Inv s) : Inv (startGame s) := by
  unfold startGame
  split
  · exact hInv
  · exact showLevelContent_inv s _ hInv

theorem showFaq_inv (s : St) (hInv : Inv s) : Inv (showFaq s) := by
  unfold showFaq
  split
  · exact hInv
  · exact setUserState_inv s _ hInv

theorem handleLevelNavigation_inv (s : St) (n : Nat) (hInv : Inv s) :
    Inv (handleLevelNavigation s n) := by
  unfold handleLevelNavigation
  split
  · exact hInv
  · exact showLevelContent_inv s n hInv

theorem handleBack_inv (s : St) (hInv : Inv s) : Inv (handleBack s) := by
  unfold handleBack
  split
  · exact hInv
  repeat' split
  all_goals first
    | exact showLevelContent_inv s _ hInv
    | exact showMainMenu_inv s hInv

theorem handleNextLevelRequest_inv (s : St) (hInv : Inv s) :
    Inv (handleNextLevelRequest s) := by
  unfold handleNextLevelRequest
  split
  · exact hInv
  split
  · exact showFinalLevel_inv s hInv
  split
  · rename_i hcompl
    have hcov := isTaskCompleted_covered s s.currentLevel none hcompl
    have hInvr : Inv ((updateUserLevel s (s.currentLevel + 1) false).2) := by
      refine updateUserLevel_inv s _ hInv ?_
      intro _ L hL1 hL2
      exact covered_upto s s.currentLevel hInv hcov L hL1 (by omega)
    simp only []
    split
    · exact showLevelContent_inv _ _ hInvr
    · exact hInvr
  · exact showTaskSelection_inv s hInv

theorem handleNextLevelButton_inv (s : St) (hInv : Inv s) :
    Inv (handleNextLevelButton s) := by
  unfold handleNextLevelButton
  split
  · exact hInv
  split
  · rename_i hcompl
    have hcov := isTaskCompleted_covered s s.currentLevel none hcompl
    split
    · have hInvr : Inv ((updateUserLevel s (s.currentLevel + 1) false).2) := by
        refine updateUserLevel_inv s _ hInv ?_
        intro _ L hL1 hL2
        exact covered_upto s s.currentLevel hInv hcov L hL1 (by omega)
      simp only []
      split
      · exact showLevelContent_inv _ _ hInvr
      · exact hInvr
    · exact showFinalLevel_inv s hInv
  · exact showTaskStatusDetails_inv s hInv

theorem handleNextButton_inv (s : St) (now : Nat) (hInv : Inv s) :
    Inv (handleNextButton s now) := by
  unfold handleNextButton
  split
  · exact hInv
  rename_i hU
  have hU' : s.userExists = true := not_not.mp hU
  simp only []
  split
  · have hInv1 : Inv ((createTask s 1 TaskType.auto now now true).2) := by
      refine createTask_inv s 1 TaskType.auto now now true hInv ?_ (fun _ => rfl)
      intro _ L hL1 hL2
      exact absurd hL2 (by omega)
    have hcov1 : covered ((createTask s 1 TaskType.auto now now true).2) 1 :=
      createTask_completed_covered s 1 TaskType.auto now now hInv hU'
        ⟨Nat.le_refl 1, by decide⟩ (Nat.le_refl now) (Or.inr rfl)
    have hInv2 : Inv ((updateUserLevel
        ((createTask s 1 TaskType.auto now now true).2) 2 false).2) := by
      refine updateUserLevel_inv _ 2 hInv1 ?_
      intro _ L hL1 hL2
      have hL : L = 1 := by omega
      rw [hL]
      exact hcov1
    exact showLevelContent_inv _ 2 hInv2
  split
  · exact showLevelContent_inv s _ hInv
  split
  · exact showFinalLevel_inv s hInv
  split
  · exact showTaskSelection_inv s hInv
  · rename_i hcompl
    have hcompl' : isTaskCompleted s (getViewedLevel s) none = true :=
      not_not.mp hcompl
    have hcov := isTaskCompleted_covered s (getViewedLevel s) none hcompl'
    have hInvr : Inv ((updateUserLevel s (getViewedLevel s + 1) false).2) := by
      refine updateUserLevel_inv s _ hInv ?_
      intro _ L hL1 hL2
      exact covered_upto s (getViewedLevel s) hInv hcov L hL1 (by omega)
    split
    · exact showLevelContent_inv _ _ hInvr
    · exact hInvr

theorem completeTimeTask_inv (s : St) (now : Nat) (hInv : Inv s) :
    Inv (completeTimeTask s now) := by
  unfold completeTimeTask
  split
  · exact hInv
  split
  · exact hInv
  rename_i t heq
  split
  · exact hInv
  have hfacts := getActiveTimeTask_facts s s.currentLevel t heq
  have hInv1 : Inv ((completeTask s s.currentLevel TaskType.time now).2) := by
    refine completeTask_inv s _ TaskType.time now hInv ?_
    intro L hL1 hL2
    exact hInv.2.2.1 L hL1 hL2
  simp only []
  split
  · have hcovd : covered ((completeTask s s.currentLevel TaskType.time now).2)
        s.currentLevel :=
      isTaskCompleted_covered _ _ _
        (completeTask_covers s s.currentLevel TaskType.time now t hfacts.1
          hfacts.2.1 hfacts.2.2.1 hfacts.2.2.2)
    refine setUserState_inv _ _ (updateUserLevel_inv _ _ hInv1 ?_)
    intro _ L hL1 hL2
    exact covered_upto _ s.currentLevel hInv1 hcovd L hL1 (by omega)
  · exact setUserState_inv _ _ (showFinalLevel_inv _ hInv1)

theorem checkDonationStatus_inv (s : St) (provider : DStatus) (now : Nat)
    (hInv : Inv s) : Inv (checkDonationStatus s provider now) := by
  unfold checkDonationStatus
  split
  · exact hInv
  rename_i hg
  have hg' := not_not.mp hg
  split
  · exact hInv
  rename_i d heqd
  split
  · exact hInv
  rename_i pid heqp
  split
  · exact hInv
  split
  · exact hInv
  rename_i hprov hproc
  simp only []
  have hInvs1 : Inv ((updateDonationStatus s d.id DStatus.succeeded
      (some pid) true now).2) :=
    updateDonationStatus_inv s d.id DStatus.succeeded (some pid) true now hInv
  have hUs1 : ((updateDonationStatus s d.id DStatus.succeeded
      (some pid) true now).2).userExists = true := by
    rw [(updateDonationStatus_frame s d.id DStatus.succeeded
      (some pid) true now).1]
    exact hg'.1
  have hLs1 : ((updateDonationStatus s d.id DStatus.succeeded
      (some pid) true now).2).currentLevel = s.currentLevel :=
    (updateDonationStatus_frame s d.id DStatus.succeeded
      (some pid) true now).2.1
  split
  · -- the donation task is not yet completed: create_task runs
    have hInvC : Inv ((createTask ((updateDonationStatus s d.id
        DStatus.succeeded (some pid) true now).2) s.currentLevel
        TaskType.donation now now true).2) := by
      refine createTask_inv _ _ TaskType.donation now now true hInvs1 ?_
        (fun _ => rfl)
      intro _ L hL1 hL2
      exact hInvs1.2.2.1 L hL1 (by rw [hLs1]; exact hL2)
    split
    · exact hInvC
    split
    · rename_i hok hle
      have hcovcur : covered ((createTask ((updateDonationStatus s d.id
          DStatus.succeeded (some pid) true now).2) s.currentLevel
          TaskType.donation now now true).2) s.currentLevel :=
        createTask_completed_covered _ s.currentLevel TaskType.donation now now
          hInvs1 hUs1 ⟨hInv.2.1.1, by omega⟩ (Nat.le_refl now) (Or.inl rfl)
      have hInvr : Inv ((updateUserLevel ((createTask ((updateDonationStatus
          s d.id DStatus.succeeded (some pid) true now).2) s.currentLevel
          TaskType.donation now now true).2) (s.currentLevel + 1) false).2) := by
        refine updateUserLevel_inv _ _ hInvC ?_
        intro _ L hL1 hL2
        exact covered_upto _ s.currentLevel hInvC hcovcur L hL1 (by omega)
      split
      · exact hInvr
      · exact setUserState_inv _ _ (showLevelContent_inv _ _ hInvr)
    · exact setUserState_inv _ _ (showFinalLevel_inv _ hInvC)
  · -- the donation task was already completed: created = (true, s1)
    rename_i hdone
    have hcovcur : covered ((updateDonationStatus s d.id DStatus.succeeded
        (some pid) true now).2) s.currentLevel := by
      have h := not_not.mp hdone
      exact isTaskCompleted_covered _ _ _ h
    split
    · exact hInvs1
    split
    · have hInvr : Inv ((updateUserLevel ((updateDonationStatus s d.id
          DStatus.succeeded (some pid) true now).2) (s.currentLevel + 1)
          false).2) := by
        refine updateUserLevel_inv _ _ hInvs1 ?_
        intro _ L hL1 hL2
        exact covered_upto _ s.currentLevel hInvs1 hcovcur L hL1 (by omega)
      split
      · exact hInvr
      · exact setUserState_inv _ _ (showLevelContent_inv _ _ hInvr)
    · exact setUserState_inv _ _ (showFinalLevel_inv _ hInvs1)

/-- One poller pass preserves the invariant: the loop invariant carries the
    schema range and downward coverage of every pending row of the snapshot,
    both of which only grow along the pass. -/
theorem pollerLoop_inv (answers : List (Nat × DStatus)) (now : Nat) :
    ∀ (pending : List DonationRow) (s : St) (b : Bool), Inv s →
    s.userExists = true →
    (∀ p ∈ pending, (1 ≤ p.level ∧ p.level ≤ MAX_LEVEL) ∧
      ∀ L, 1 ≤ L → L < p.level → covered s L) →
    Inv (pollerLoop pending answers now s b) := by
  intro pending
  induction pending with
  | nil =>
    intro s b hInv _ _
    exact hInv
  | cons p rest ih =>
    intro s b hInv hU hpend
    have htail : ∀ q ∈ rest, (1 ≤ q.level ∧ q.level ≤ MAX_LEVEL) ∧
        ∀ L, 1 ≤ L → L < q.level → covered s L :=
      fun q hq => hpend q (List.mem_cons_of_mem p hq)
    have hp := hpend p (List.mem_cons_self p rest)
    unfold pollerLoop
    split
    · exact ih s b hInv hU htail
    split
    · exact ih s b hInv hU htail
    split
    · exact ih s b hInv hU htail
    rename_i pid heqp
    split
    · -- provider answers succeeded
      have hInv1 : Inv ((updateDonationStatus s p.id DStatus.succeeded
          (some pid) true now).2) :=
        updateDonationStatus_inv s p.id DStatus.succeeded (some pid) true now
          hInv
      have hU1 : ((updateDonationStatus s p.id DStatus.succeeded
          (some pid) true now).2).userExists = true := by
        rw [(updateDonationStatus_frame s p.id DStatus.succeeded
          (some pid) true now).1]
        exact hU
      simp only []
      split
      · -- level 0 charity branch
        refine ih _ true (setUserState_inv _ _ hInv1) ?_ ?_
        · rw [(setUserState_frame _ _).1]
          exact hU1
        · intro q hq
          refine ⟨(htail q hq).1, ?_⟩
          intro L hL1 hL2
          exact setUserState_covered_mono _ _ _
            (updateDonationStatus_covered_mono _ _ _ _ _ _ _
              ((htail q hq).2 L hL1 hL2))
      · -- apply: task insert, bump, state write
        have hInv2 : Inv ((createTask ((updateDonationStatus s p.id
            DStatus.succeeded (some pid) true now).2) p.level
            TaskType.donation now now true).2) := by
          refine createTask_inv _ _ TaskType.donation now now true hInv1 ?_
            (fun _ => rfl)
          intro _ L hL1 hL2
          exact updateDonationStatus_covered_mono _ _ _ _ _ _ _
            (hp.2 L hL1 hL2)
        have hcov2 : covered ((createTask ((updateDonationStatus s p.id
            DStatus.succeeded (some pid) true now).2) p.level
            TaskType.donation now now true).2) p.level :=
          createTask_completed_covered _ p.level TaskType.donation now now
            hInv1 hU1 hp.1 (Nat.le_refl now) (Or.inl rfl)
        have hInv3 : Inv ((updateUserLevel ((createTask
            ((updateDonationStatus s p.id DStatus.succeeded (some pid) true
            now).2) p.level TaskType.donation now now true).2) (p.level + 1)
            false).2) := by
          refine updateUserLevel_inv _ _ hInv2 ?_
          intro _ L hL1 hL2
          exact covered_upto _ p.level hInv2 hcov2 L hL1 (by omega)
        refine ih _ true (setUserState_inv _ _ hInv3) ?_ ?_
        · rw [(setUserState_frame _ _).1, (updateUserLevel_frame _ _ _).2.2.1,
            (createTask_frame _ _ _ _ _ _).1]
          exact hU1
        · intro q hq
          refine ⟨(htail q hq).1, ?_⟩
          intro L hL1 hL2
          exact setUserState_covered_mono _ _ _
            (updateUserLevel_covered_mono _ _ _ _
              (createTask_covered_mono _ _ _ _ _ _ _
                (updateDonationStatus_covered_mono _ _ _ _ _ _ _
                  ((htail q hq).2 L hL1 hL2))))
    · -- provider answers canceled
      refine ih _ b (updateDonationStatus_inv s p.id DStatus.canceled
        (some pid) false now hInv) ?_ ?_
      · rw [(updateDonationStatus_frame _ _ _ _ _ _).1]
        exact hU
      · intro q hq
        refine ⟨(htail q hq).1, ?_⟩
        intro L hL1 hL2
        exact updateDonationStatus_covered_mono _ _ _ _ _ _ _
          ((htail q hq).2 L hL1 hL2)
    · -- provider answers pending / waiting_for_capture
      exact ih s b hInv hU htail

theorem pollerPass_inv (s : St) (answers : List (Nat × DStatus)) (now : Nat)
    (hInv : Inv s) : Inv (pollerPass s answers now) := by
  unfold pollerPass
  by_cases hU : s.userExists = true
  · refine pollerLoop_inv answers now _ s false hInv hU ?_
    intro p hp
    have hpd : p ∈ s.donations := by
      unfold getPendingPayments at hp
      exact List.mem_of_mem_filter hp
    exact ⟨hInv.2.2.2.2.2.2.1 p hpd,
      fun L hL1 hL2 => hInv.2.2.2.2.2.2.2 p hpd L hL1 hL2⟩
  · have h0 := hInv.1 (by simpa using hU)
    have hpend : getPendingPayments s = [] := by
      unfold getPendingPayments
      rw [h0.2.1]
      rfl
    rw [hpend]
    exact hInv

/-- Every event of the system preserves the invariant. -/
theorem step_inv (e : Ev) (s : St) (hInv : Inv s) : Inv (step e s) := by
  cases e with
  | start ref => exact handleStart_inv s ref hInv
  | language isRussian => exact handleLanguageSelection_inv s isRussian hInv
  | acceptRules => exact handleAcceptRules_inv s hInv
  | nameStep valid => exact processNameStep_inv s valid hInv
  | birthdateStep valid => exact processBirthdateStep_inv s valid hInv
  | locationStep valid => exact processLocationStep_inv s valid hInv
  | startGame => exact startGame_inv s hInv
  | nextButton now => exact handleNextButton_inv s now hInv
  | nextLevelRequest => exact handleNextLevelRequest_inv s hInv
  | nextLevelButton => exact handleNextLevelButton_inv s hInv
  | timeTask now => exact handleTimeTask_inv s now hInv
  | startTime now => exact startTimeTask_inv s now hInv
  | completeTime now => exact completeTimeTask_inv s now hInv
  | referralTask now => exact handleReferralTask_inv s now hInv
  | checkReferralStatus => exact hInv
  | donationSelect ok pid now =>
    exact handleDonationSelection_inv s ok pid now hInv
  | checkDonation provider now => exact checkDonationStatus_inv s provider now hInv
  | charity => exact handleCharity_inv s hInv
  | charityAmount valid amount pid now =>
    exact processCharityAmount_inv s valid amount pid now hInv
  | charityBack => exact processCharityBack_inv s hInv
  | checkCharity provider now => exact checkCharityStatus_inv s provider now hInv
  | faq => exact showFaq_inv s hInv
  | levelNav n => exact handleLevelNavigation_inv s n hInv
  | back => exact handleBack_inv s hInv
  | poller answers now => exact pollerPass_inv s answers now hInv

theorem initSt_inv : Inv initSt := by
  refine ⟨?_, ?_, ?_, ?_, ?_, ?_, ?_, ?_⟩ <;>
    simp [initSt, covered, coveredT, MAX_LEVEL] <;> intros <;> omega

theorem runEvents_inv (es : List Ev) :
    ∀ s : St, Inv s → Inv (runEvents es s) := by
  induction es with
  | nil => intro s hInv; exact hInv
  | cons e rest ih =>
    intro s hInv
    exact ih (step e s) (step_inv e s hInv)

/-- The inductive invariant holds in every reachable store state. -/
theorem reachable_inv (s : St) (h : Reachable s) : Inv s := by
  obtain ⟨es, hes⟩ := h
  rw [hes]
  exact runEvents_inv es initSt initSt_inv

theorem setViewedLevel_frame (s : St) (lvl : Nat) :
    ((setViewedLevel s lvl).2).currentLevel = s.currentLevel ∧
    ((setViewedLevel s lvl).2).userExists = s.userExists := by
  unfold setViewedLevel
  repeat' split
  all_goals exact ⟨rfl, rfl⟩

theorem showLevelContent_currentLevel (s : St) (n : Nat) :
    (showLevelContent s n).currentLevel = s.currentLevel := by
  unfold showLevelContent
  simp only []
  repeat' split
  all_goals first
    | rw [(setUserState_frame _ _).2.1, (setViewedLevel_frame s n).1]
    | exact (setViewedLevel_frame s n).1

theorem showTaskSelection_currentLevel (s : St) :
    (showTaskSelection s).currentLevel = s.currentLevel := by
  unfold showTaskSelection showFinalLevel
  repeat' split
  all_goals first
    | rfl
    | exact (setUserState_frame _ _).2.1

/-! ## Claim C3 -/

set_option maxRecDepth 10000 in
/-- C3 as frozen states the bump-iff-completed equivalence unconditionally;
    it fails at currentLevel = MAX_LEVEL: after a full climb to level 21 and
    a completed time task at level 21 (reachable because
    handle_next_level_button's show_task_status_details enters
    TASK_SELECTION at any level), handle_next_level_request answers with the
    final-level message and does not bump, although IsAnyTaskCompleted is
    true. -/
theorem c3_counterexample :
    (runEvents climbEvents initSt).currentLevel = MAX_LEVEL ∧
    (runEvents climbEvents initSt).currentState = stLEVEL_CONTENT ∧
    isTaskCompleted (runEvents climbEvents initSt) MAX_LEVEL none = true ∧
    (handleNextLevelRequest (runEvents climbEvents initSt)).currentLevel =
      MAX_LEVEL := by
  decide

/-- C3, corrected: below MAX_LEVEL, handle_next_level_request (in state
    LEVEL_CONTENT) bumps current_level by exactly one iff some task at the
    current level is completed; and in every reachable state every level
    below current_level carries a completed task row — the no-skip property,
    with the level-1→2 auto-unlock inserting its completed auto-type row
    rather than being an exception. -/
theorem c3_advance_iff_no_skip (s : St) (hR : Reachable s)
    (hU : s.userExists = true) (hSt : s.currentState = stLEVEL_CONTENT)
    (hlt : s.currentLevel < MAX_LEVEL) :
    ((handleNextLevelRequest s).currentLevel = s.currentLevel + 1 ↔
      isTaskCompleted s s.currentLevel none = true) ∧
    (∀ L, 1 ≤ L → L < s.currentLevel → covered s L) := by
  have hInv := reachable_inv s hR
  have hg : ¬¬(s.userExists = true ∧ s.currentState = stLEVEL_CONTENT) :=
    not_not_intro ⟨hU, hSt⟩
  constructor
  · constructor
    · intro hbump
      by_contra hnc
      unfold handleNextLevelRequest at hbump
      rw [if_neg hg, if_neg (Nat.not_le.mpr hlt), if_neg hnc,
        showTaskSelection_currentLevel] at hbump
      omega
    · intro hcompl
      unfold handleNextLevelRequest
      rw [if_neg hg, if_neg (Nat.not_le.mpr hlt), if_pos hcompl]
      simp only []
      rw [updateUserLevel_succeeds s (s.currentLevel + 1) hU (by omega)
        (by omega)]
      rw [if_pos rfl]
      rw [showLevelContent_currentLevel]
  · exact fun L hL1 hL2 => hInv.2.2.1 L hL1 hL2

theorem c3_advance_iff_no_skip_witness :
    c3state.userExists = true ∧ c3state.currentState = stLEVEL_CONTENT ∧
    c3state.currentLevel < MAX_LEVEL ∧
    (((handleNextLevelRequest c3state).currentLevel =
        c3state.currentLevel + 1 ↔
      isTaskCompleted c3state c3state.currentLevel none = true) ∧
     (∀ L, 1 ≤ L → L < c3state.currentLevel → covered c3state L)) :=
  ⟨by decide, by decide, by decide,
   c3_advance_iff_no_skip c3state ⟨c3events, rfl⟩ (by decide) (by decide)
     (by decide)⟩

/-! ## Claim C10 -/

/-- C10: update_user_level writes min(level, MAX_LEVEL) even with force, the
    written value stays in 1..MAX_LEVEL whenever the current one was, and in
    every reachable store the user's current_level lies in 1..MAX_LEVEL. -/
theorem c10_level_clamped (s : St) (lvl : Nat) (force : Bool)
    (h1 : 1 ≤ s.currentLevel) (h2 : s.currentLevel ≤ MAX_LEVEL) :
    (1 ≤ ((updateUserLevel s lvl force).2).currentLevel ∧
      ((updateUserLevel s lvl force).2).currentLevel ≤ MAX_LEVEL) ∧
    ((updateUserLevel s lvl force).1 = true →
      ((updateUserLevel s lvl force).2).currentLevel = min lvl MAX_LEVEL) ∧
    (∀ s' : St, Reachable s' →
      1 ≤ s'.currentLevel ∧ s'.currentLevel ≤ MAX_LEVEL) :=
  ⟨updateUserLevel_snd_bounds s lvl force h1 h2,
   fun h => updateUserLevel_success_value s lvl force h,
   fun s' hR => (reachable_inv s' hR).2.1⟩

theorem c10_level_clamped_witness :
    (1 ≤ c8state.currentLevel ∧ c8state.currentLevel ≤ MAX_LEVEL) ∧
    ((1 ≤ ((updateUserLevel c8state 99 true).2).currentLevel ∧
      ((updateUserLevel c8state 99 true).2).currentLevel ≤ MAX_LEVEL) ∧
     ((updateUserLevel c8state 99 true).1 = true →
      ((updateUserLevel c8state 99 true).2).currentLevel =
        min 99 MAX_LEVEL) ∧
     (∀ s' : St, Reachable s' →
      1 ≤ s'.currentLevel ∧ s'.currentLevel ≤ MAX_LEVEL)) :=
  ⟨⟨by decide, by decide⟩,
   c10_level_clamped c8state 99 true (by decide) (by decide)⟩

/-! ## Claim C8 -/

/-- C8 as frozen asserts that advancing while browsing a past level leaves
    every other field of the user record unchanged; but handle_next_button
    ends in show_level_content, which writes current_state = LEVEL_CONTENT:
    a user in state TASK_SELECTION has their state changed. -/
theorem c8_counterexample :
    getViewedLevel c8state < c8state.currentLevel ∧
    c8state.currentState = stTASK_SELECTION ∧
    (handleNextButton c8state 5).currentState = stLEVEL_CONTENT ∧
    ¬ (handleNextButton c8state 5).currentState = c8state.currentState := by
  decide

/-- C8 (amended): if viewedLevel < currentLevel when the user presses
    'Далее', the displayed level moves forward by one with no task-completion
    requirement, and currentLevel, registration_complete and the donations
    ledger are unchanged; however current_state is set to LEVEL_CONTENT
    (not necessarily its old value), and for viewedLevel = 1 a completed
    auto task row may additionally be inserted (for viewedLevel ≥ 2 the
    tasks ledger is untouched). -/
theorem c8_browse_forward (s : St) (now : Nat) (hU : s.userExists = true)
    (hv : getViewedLevel s < s.currentLevel) (hM : s.currentLevel ≤ MAX_LEVEL) :
    getViewedLevel (handleNextButton s now) = getViewedLevel s + 1 ∧
    (handleNextButton s now).currentLevel = s.currentLevel ∧
    (handleNextButton s now).regComplete = s.regComplete ∧
    (handleNextButton s now).currentState = stLEVEL_CONTENT ∧
    (handleNextButton s now).donations = s.donations ∧
    (2 ≤ getViewedLevel s → (handleNextButton s now).tasks = s.tasks) := by
  unfold handleNextButton
  rw [if_neg (by simp [hU])]
  by_cases h1 : getViewedLevel s = 1
  · rw [if_pos h1]
    simp only []
    have hc2 : 2 ≤ s.currentLevel := by omega
    obtain ⟨f1, f2, f3, f4, f5, f6⟩ :=
      createTask_frame s 1 TaskType.auto now now true
    have hupd : updateUserLevel ((createTask s 1 TaskType.auto now now
        true).2) 2 false = (false, (createTask s 1 TaskType.auto now now
        true).2) :=
      updateUserLevel_guard_fails _ 2 (Or.inl (by rw [f2]; exact hc2))
    rw [hupd]
    rw [showLevelContent_of _ 2 (by rw [f1]; exact hU) (by omega) (by decide)
      (by rw [f2]; exact hc2)]
    refine ⟨by rw [h1]; rfl, by simpa using f2, by simpa using f3,
      rfl, by simpa using f6, ?_⟩
    intro hh
    exact absurd (h1 ▸ hh) (by omega)
  · rw [if_neg h1, if_pos hv]
    have hb : getViewedLevel s + 1 ≤ s.currentLevel := hv
    rw [showLevelContent_of s (getViewedLevel s + 1) hU (by omega)
      (by omega) hb]
    exact ⟨by simp [getViewedLevel], rfl, rfl, rfl, rfl, fun _ => rfl⟩

theorem c8_browse_forward_witness :
    getViewedLevel (handleNextButton c8state 5) = getViewedLevel c8state + 1 ∧
    (handleNextButton c8state 5).currentLevel = c8state.currentLevel ∧
    (handleNextButton c8state 5).regComplete = c8state.regComplete ∧
    (handleNextButton c8state 5).currentState = stLEVEL_CONTENT ∧
    (handleNextButton c8state 5).donations = c8state.donations ∧
    (2 ≤ getViewedLevel c8state →
      (handleNextButton c8state 5).tasks = c8state.tasks) :=
  c8_browse_forward c8state 5 (by decide) (by decide) (by decide)

/-! ## Claim C9 -/

set_option maxRecDepth 10000 in
/-- C9 as frozen asserts the inline bump to currentLevel + 1 on every
    accepted completion; it fails at currentLevel = MAX_LEVEL: after the
    reachable climb to level 21 with an active time task started there,
    complete_time_task at or past the 24-hour mark marks the task completed
    (the request is accepted) but computes next_level = 22 > MAX_LEVEL and
    shows the final-level message instead of bumping: current_level stays
    21. -/
theorem c9_counterexample :
    (runEvents c9climbPrefix initSt).currentLevel = MAX_LEVEL ∧
    (runEvents c9climbPrefix initSt).currentState = stTIME_TASK ∧
    isTaskCompleted
      (completeTimeTask (runEvents c9climbPrefix initSt)
        (30000000 + TASK_DURATION)) MAX_LEVEL (some TaskType.time) = true ∧
    (completeTimeTask (runEvents c9climbPrefix initSt)
      (30000000 + TASK_DURATION)).currentLevel = MAX_LEVEL ∧
    completeTimeTaskReply (runEvents c9climbPrefix initSt)
      (30000000 + TASK_DURATION) = TimeTaskReply.finalLevel := by
  decide

/-- C9, corrected: completing a time task for the current level is accepted
    only when now is at or past start_time + 24h: before that the request
    leaves the store unchanged and reports the remaining time; at or past
    it the task row is marked completed and, provided
    currentLevel < MAX_LEVEL, the bump to currentLevel + 1 happens inline
    in the same handler (at MAX_LEVEL the task is completed but no bump
    occurs and the final-level message is shown, see c9_counterexample). -/
theorem c9_time_task_completion (s : St) (now1 now2 : Nat) (t : TaskRow)
    (hU : s.userExists = true) (hSt : s.currentState = stTIME_TASK)
    (ht : getActiveTimeTask s s.currentLevel = some t)
    (hM : s.currentLevel < MAX_LEVEL)
    (h1 : now1 < t.startTime + TASK_DURATION)
    (h2 : t.startTime + TASK_DURATION ≤ now2) :
    (completeTimeTask s now1 = s ∧
     completeTimeTaskReply s now1 =
       TimeTaskReply.notYet (t.startTime + TASK_DURATION - now1)) ∧
    ((completeTimeTask s now2).currentLevel = s.currentLevel + 1 ∧
     isTaskCompleted (completeTimeTask s now2) s.currentLevel
       (some TaskType.time) = true ∧
     completeTimeTaskReply s now2 =
       TimeTaskReply.levelUp (s.currentLevel + 1)) := by
  obtain ⟨hmem, hl, hty, hc⟩ := getActiveTimeTask_facts s s.currentLevel t ht
  constructor
  · constructor
    · unfold completeTimeTask
      simp only [hU, hSt, and_self, not_true, if_false, Bool.not_eq_true,
        ite_false]
      rw [ht]
      simp only []
      rw [if_pos h1]
    · unfold completeTimeTaskReply
      rw [ht]
      simp only []
      rw [if_pos h1]
  · have hnot : ¬ now2 < t.startTime + TASK_DURATION := Nat.not_lt.mpr h2
    have hbody : completeTimeTask s now2 =
        (setUserState ((updateUserLevel ((completeTask s s.currentLevel
          TaskType.time now2).2) (s.currentLevel + 1) false).2)
          stLEVEL_CONTENT).2 := by
      unfold completeTimeTask
      simp only [hU, hSt, and_self, not_true, if_false, Bool.not_eq_true,
        ite_false]
      rw [ht]
      simp only []
      rw [if_neg hnot, if_pos (by omega : s.currentLevel + 1 ≤ MAX_LEVEL)]
    have hS1U : ((completeTask s s.currentLevel TaskType.time now2).2).userExists
        = true := hU
    have hS1L : ((completeTask s s.currentLevel TaskType.time now2).2).currentLevel
        = s.currentLevel := rfl
    have hupd := updateUserLevel_succeeds
      ((completeTask s s.currentLevel TaskType.time now2).2)
      (s.currentLevel + 1) hS1U (by omega) (by omega)
    refine ⟨?_, ?_, ?_⟩
    · rw [hbody, hupd]
      rw [setUserState_of_exists _ _ (by exact hU)]
    · rw [hbody, hupd]
      rw [setUserState_of_exists _ _ (by exact hU)]
      have hcov := completeTask_covers s s.currentLevel TaskType.time now2 t
        hmem hl hty hc
      simpa [isTaskCompleted] using hcov
    · unfold completeTimeTaskReply
      rw [ht]
      simp only []
      rw [if_neg hnot, if_pos (by omega : s.currentLevel + 1 ≤ MAX_LEVEL)]

/-! ## Helper lemmas for claim C1 -/

theorem c1_updateDonation (s : St) (d : DonationRow) (pid now : Nat)
    (hD : s.donations = [d]) (hds : d.status = DStatus.pending)
    (hr : 1 ≤ d.level ∧ d.level ≤ MAX_LEVEL)
    (hT : ∀ t ∈ s.tasks, ¬ (t.level = d.level ∧ t.taskType = TaskType.donation)) :
    updateDonationStatus s d.id DStatus.succeeded (some pid) true now =
      (true, { s with donations := [appliedRow d pid],
                      tasks := s.tasks ++ [appliedTask d.level now] }) := by
  have hfind : findDonation s d.id = some d := by
    unfold findDonation
    rw [hD]
    simp
  have hany : s.tasks.any (fun t =>
      decide (t.level = d.level ∧ t.taskType = TaskType.donation)) = false := by
    rw [List.any_eq_false]
    intro t htm
    simpa using hT t htm
  unfold updateDonationStatus
  rw [hfind]
  dsimp only
  rw [if_neg (by rw [hds]; simp), if_pos rfl, if_neg (not_not_intro hr),
    if_neg (by rw [hany]; simp)]
  rw [hD]
  simp [appliedRow, appliedTask]

theorem c1_interactive_apply (s : St) (d : DonationRow) (pid now : Nat)
    (hU : s.userExists = true) (hSt : s.currentState = stDONATION_TASK)
    (hL2 : 2 ≤ s.currentLevel) (hLM : s.currentLevel < MAX_LEVEL)
    (hD : s.donations = [d]) (hdl : d.level = s.currentLevel)
    (hds : d.status = DStatus.pending) (hdp : d.processed = false)
    (hdpid : d.paymentId = some pid)
    (hT : ∀ t ∈ s.tasks,
      ¬ (t.level = s.currentLevel ∧ t.taskType = TaskType.donation)) :
    checkDonationStatus s DStatus.succeeded now =
      { s with donations := [appliedRow d pid],
               tasks := s.tasks ++ [appliedTask s.currentLevel now],
               currentLevel := s.currentLevel + 1,
               userData := some (s.currentLevel + 1),
               currentState := stLEVEL_CONTENT } := by
  have hM21 : MAX_LEVEL = 21 := rfl
  have hlast : getLastDonation s s.currentLevel = some d := by
    unfold getLastDonation
    rw [hD]
    simp [hdl]
  have hupd := c1_updateDonation s d pid now hD hds
    (by rw [hdl]; exact ⟨by omega, by omega⟩)
    (by intro t ht; rw [hdl]; exact hT t ht)
  unfold checkDonationStatus
  rw [if_neg (not_not_intro ⟨hU, hSt⟩)]
  rw [hlast]
  dsimp only
  rw [hdpid]
  dsimp only
  rw [if_neg (by simp), if_neg (by rw [hdp]; simp)]
  rw [hupd]
  dsimp only
  have hcompl : isTaskCompleted
      { s with donations := [appliedRow d pid],
               tasks := s.tasks ++ [appliedTask d.level now] }
      s.currentLevel (some TaskType.donation) = true := by
    unfold isTaskCompleted
    rw [List.any_eq_true]
    refine ⟨appliedTask d.level now, by simp, ?_⟩
    simp [appliedTask, hdl]
  rw [if_neg (by rw [hcompl]; simp)]
  rw [if_pos (by omega : s.currentLevel + 1 ≤ MAX_LEVEL)]
  simp only [hcompl, eq_self_iff_true, not_true, if_false]
  rw [updateUserLevel_succeeds _ (s.currentLevel + 1) (by exact hU)
    (by dsimp only; omega) (by omega)]
  dsimp only
  simp only [eq_self_iff_true, not_true, if_false]
  rw [showLevelContent_of _ (s.currentLevel + 1) (by exact hU) (by omega)
    (by omega) (by dsimp only; omega)]
  rw [setUserState_of_exists _ _ (by exact hU)]
  simp only [hdl]

theorem c1_poller_apply (s : St) (d : DonationRow) (pid now : Nat)
    (hU : s.userExists = true)
    (hL2 : 2 ≤ s.currentLevel) (hLM : s.currentLevel < MAX_LEVEL)
    (hD : s.donations = [d]) (hdl : d.level = s.currentLevel)
    (hds : d.status = DStatus.pending) (hdp : d.processed = false)
    (hdpid : d.paymentId = some pid)
    (hT : ∀ t ∈ s.tasks,
      ¬ (t.level = s.currentLevel ∧ t.taskType = TaskType.donation)) :
    pollerPass s [(pid, DStatus.succeeded)] now =
      { s with donations := [appliedRow d pid],
               tasks := s.tasks ++ [appliedTask s.currentLevel now],
               currentLevel := s.currentLevel + 1,
               currentState := stLEVEL_CONTENT } := by
  have hM21 : MAX_LEVEL = 21 := rfl
  have hpend : getPendingPayments s = [d] := by
    unfold getPendingPayments
    rw [hD]
    simp [hds]
  have hproc : isDonationProcessed s d.id = false := by
    unfold isDonationProcessed findDonation
    rw [hD]
    simp [hdp]
  have hprov : providerLookup [(pid, DStatus.succeeded)] pid =
      DStatus.succeeded := by
    unfold providerLookup
    simp
  have hupd := c1_updateDonation s d pid now hD hds
    (by rw [hdl]; exact ⟨by omega, by omega⟩)
    (by intro t ht; rw [hdl]; exact hT t ht)
  unfold pollerPass
  rw [hpend]
  simp only [pollerLoop, Bool.false_eq_true, if_false, ite_false]
  rw [hproc]
  simp only [Bool.false_eq_true, if_false, ite_false]
  rw [hdpid]
  dsimp only
  rw [hprov]
  dsimp only
  rw [hupd]
  dsimp only
  rw [if_neg (by rw [hdl]; omega)]
  rw [createTask_existing _ d.level TaskType.donation now now true
    (appliedTask d.level now) (by simp) (by rfl) (by rfl)]
  dsimp only
  rw [updateUserLevel_succeeds _ (d.level + 1) (by exact hU)
    (by dsimp only; omega) (by omega)]
  dsimp only
  rw [setUserState_of_exists _ _ (by exact hU)]
  simp only [pollerLoop]
  simp only [hdl]

theorem c1_apply_fixed (pid : Nat) (op : ApplyOp) (s1 : St)
    (hSt : s1.currentState = stLEVEL_CONTENT)
    (hD : ∀ d0 ∈ s1.donations, d0.status ≠ DStatus.pending) :
    runApply pid s1 op = s1 := by
  cases op with
  | interactive n =>
    unfold runApply checkDonationStatus
    dsimp only
    rw [if_pos (by rw [hSt]; exact fun h => absurd h.2 (by decide))]
  | background n =>
    unfold runApply pollerPass
    dsimp only
    have hpend : getPendingPayments s1 = [] := by
      unfold getPendingPayments
      rw [List.filter_eq_nil_iff]
      intro d0 hd0
      simpa using hD d0 hd0
    rw [hpend]
    rfl

theorem runApplies_fixed (pid : Nat) (ops : List ApplyOp) (s1 : St)
    (hSt : s1.currentState = stLEVEL_CONTENT)
    (hD : ∀ d0 ∈ s1.donations, d0.status ≠ DStatus.pending) :
    runApplies pid s1 ops = s1 := by
  induction ops with
  | nil => rfl
  | cons op rest ih =>
    have h1 : runApplies pid s1 (op :: rest) =
        runApplies pid (runApply pid s1 op) rest := rfl
    rw [h1, c1_apply_fixed pid op s1 hSt hD, ih]

theorem donationTasksAt_once (ts : List TaskRow) (lvl n : Nat)
    (hT : ∀ t ∈ ts, ¬ (t.level = lvl ∧ t.taskType = TaskType.donation)) :
    ((ts ++ [appliedTask lvl n]).filter (fun t =>
      decide (t.level = lvl ∧ t.taskType = TaskType.donation ∧
        t.completed = true))).length = 1 := by
  rw [List.filter_append]
  have h0 : ts.filter (fun t =>
      decide (t.level = lvl ∧ t.taskType = TaskType.donation ∧
        t.completed = true)) = [] := by
    rw [List.filter_eq_nil_iff]
    intro t ht
    simp only [decide_eq_true_eq]
    intro hk
    exact hT t ht ⟨hk.1, hk.2.1⟩
  rw [h0]
  simp [appliedTask]

set_option maxRecDepth 200000 in
/-- Every interleaving of the interactive apply path racing one poller pass
    on the concrete instance ends in the exactly-once outcome. -/
theorem c1_all_schedules_ok :
    (c1Scheds.all (fun sch => c1FinalOk (runSched sch))) = true := by
  decide

/-- C1: starting from a user in the donation-check state with one pending
    unprocessed donation d for the current level, any nonempty sequence of
    apply-success operations — interactive status checks and poller passes
    in any order, at any wall-clock times — has the same effect as its first
    operation alone: the level is bumped exactly once (to currentLevel + 1),
    exactly one completed donation task row for the level exists, and the
    donation ends succeeded with processed = true (false→true exactly once,
    every later operation being an identity).  The last conjunct checks, on
    a concrete instance, every interleaving of the individual database calls
    of the interactive handler racing against one poller pass: all 1716
    schedules end in the same exactly-once outcome. -/
theorem c1_apply_success_exactly_once (s : St) (d : DonationRow)
    (pid : Nat) (op : ApplyOp) (ops : List ApplyOp)
    (hU : s.userExists = true) (hSt : s.currentState = stDONATION_TASK)
    (hL2 : 2 ≤ s.currentLevel) (hLM : s.currentLevel < MAX_LEVEL)
    (hD : s.donations = [d]) (hdl : d.level = s.currentLevel)
    (hds : d.status = DStatus.pending) (hdp : d.processed = false)
    (hdpid : d.paymentId = some pid)
    (hT : ∀ t ∈ s.tasks,
      ¬ (t.level = s.currentLevel ∧ t.taskType = TaskType.donation)) :
    runApplies pid s (op :: ops) = runApply pid s op ∧
    (runApply pid s op).currentLevel = s.currentLevel + 1 ∧
    (donationTasksAt (runApply pid s op) s.currentLevel).length = 1 ∧
    (runApply pid s op).donations = [appliedRow d pid] ∧
    (appliedRow d pid).status = DStatus.succeeded ∧
    (appliedRow d pid).processed = true ∧
    (c1Scheds.all (fun sch => c1FinalOk (runSched sch))) = true := by
  have hconc : (c1Scheds.all (fun sch => c1FinalOk (runSched sch))) = true :=
    c1_all_schedules_ok
  have hchain : runApplies pid s (op :: ops) =
      runApplies pid (runApply pid s op) ops := rfl
  cases op with
  | interactive n =>
    have hF : runApply pid s (ApplyOp.interactive n) =
        { s with donations := [appliedRow d pid],
                 tasks := s.tasks ++ [appliedTask s.currentLevel n],
                 currentLevel := s.currentLevel + 1,
                 userData := some (s.currentLevel + 1),
                 currentState := stLEVEL_CONTENT } :=
      c1_interactive_apply s d pid n hU hSt hL2 hLM hD hdl hds hdp hdpid hT
    rw [hchain, hF]
    refine ⟨?_, rfl, ?_, rfl, rfl, rfl, hconc⟩
    · exact runApplies_fixed pid ops _ rfl
        (by intro d0 hd0
            simp only [List.mem_singleton] at hd0
            subst hd0
            simp [appliedRow])
    · unfold donationTasksAt
      exact donationTasksAt_once s.tasks s.currentLevel n hT
  | background n =>
    have hF : runApply pid s (ApplyOp.background n) =
        { s with donations := [appliedRow d pid],
                 tasks := s.tasks ++ [appliedTask s.currentLevel n],
                 currentLevel := s.currentLevel + 1,
                 currentState := stLEVEL_CONTENT } :=
      c1_poller_apply s d pid n hU hL2 hLM hD hdl hds hdp hdpid hT
    rw [hchain, hF]
    refine ⟨?_, rfl, ?_, rfl, rfl, rfl, hconc⟩
    · exact runApplies_fixed pid ops _ rfl
        (by intro d0 hd0
            simp only [List.mem_singleton] at hd0
            subst hd0
            simp [appliedRow])
    · unfold donationTasksAt
      exact donationTasksAt_once s.tasks s.currentLevel n hT

theorem c1_apply_success_exactly_once_witness :
    runApplies 9 c1st
        (ApplyOp.interactive 100 ::
          [ApplyOp.background 200, ApplyOp.interactive 300]) =
      runApply 9 c1st (ApplyOp.interactive 100) ∧
    (runApply 9 c1st (ApplyOp.interactive 100)).currentLevel =
      c1st.currentLevel + 1 ∧
    (donationTasksAt (runApply 9 c1st (ApplyOp.interactive 100))
      c1st.currentLevel).length = 1 ∧
    (runApply 9 c1st (ApplyOp.interactive 100)).donations =
      [appliedRow c1donation 9] ∧
    (appliedRow c1donation 9).status = DStatus.succeeded ∧
    (appliedRow c1donation 9).processed = true ∧
    (c1Scheds.all (fun sch => c1FinalOk (runSched sch))) = true :=
  c1_apply_success_exactly_once c1st c1donation 9 (ApplyOp.interactive 100)
    [ApplyOp.background 200, ApplyOp.interactive 300] (by decide) (by decide)
    (by decide) (by decide) (by decide) (by decide) (by decide) (by decide)
    (by decide) (by decide)

theorem c9_time_task_completion_witness :
    (completeTimeTask c5state 100 = c5state ∧
     completeTimeTaskReply c5state 100 =
       TimeTaskReply.notYet (0 + TASK_DURATION - 100)) ∧
    ((completeTimeTask c5state TASK_DURATION).currentLevel =
       c5state.currentLevel + 1 ∧
     isTaskCompleted (completeTimeTask c5state TASK_DURATION)
       c5state.currentLevel (some TaskType.time) = true ∧
     completeTimeTaskReply c5state TASK_DURATION =
       TimeTaskReply.levelUp (c5state.currentLevel + 1)) :=
  c9_time_task_completion c5state 100 TASK_DURATION
    { level := 3, taskType := TaskType.time, startTime := 0,
      endTime := TASK_DURATION, completed := false, completionTime := none }
    (by decide) (by decide) (by decide) (by decide) (by decide) (by decide)

end Probuzhdenie
